import Mathlib

/-!
# Telemetry and risk benchmarks: a shallow embedding

The two programs `bench_node.js` (JSON parse / validate / aggregate / checksum over synthetic
telemetry) and `bench_algo_node.js` (Monte Carlo risk scoring) are embedded as Lean functions.

Conventions of the embedding.

* A JavaScript string is the list of its UTF-16 code units (`JsString`).
* 32-bit integer operators (`^`, `Math.imul`, `>>> 0`) are written over `Int` / `Nat` with the
  conversions `ToInt32` and `ToUint32` of the language made explicit.
* Counters and checksums are exact integers; in the program they are doubles holding integers,
  on which double arithmetic is exact below `2^53` (for the sum of the per-device checksums:
  fewer than `2^21` devices in a batch).
* A `throw` is the result `none`.
* `JSON.parse` and `Date.now` are passed as parameters.
-/

set_option autoImplicit false

namespace Bench

/-! ## Strings -/

/-- A JavaScript string: the list of its UTF-16 code units. -/
abbrev JsString := List Nat

/-- UTF-16 code units of one Unicode scalar value. -/
def codeUnits (c : Char) : List Nat :=
  if c.toNat < 65536 then [c.toNat]
  else [55296 + (c.toNat - 65536) / 1024, 56320 + (c.toNat - 65536) % 1024]

/-- The JavaScript string denoted by a Lean string literal. -/
def js (s : String) : JsString :=
  s.toList.flatMap codeUnits

/-! ## 32-bit integer operators -/

/-- The abstract operation `ToUint32`, also the effect of `x >>> 0`. -/
def toUint32 (x : Int) : Nat :=
  (x % 4294967296).toNat

/-- The abstract operation `ToInt32`: the representative of `x` modulo `2^32` in
`[-2^31, 2^31)`, written so that `x` occurs once (see `toInt32_eq`). -/
def toInt32 (x : Int) : Int :=
  (x + 2147483648) % 4294967296 - 2147483648

/-- The operator `a ^ b`: both operands go through `ToInt32`, the two's complement bit strings
(the unsigned residues) are combined bit by bit, and the result is read back as a signed
32-bit integer. -/
def xor32 (a b : Int) : Int :=
  toInt32 ((toUint32 (toInt32 a) ^^^ toUint32 (toInt32 b) : Nat) : Int)

/-- The function `Math.imul(a, b)`: product of the `ToUint32` operands modulo `2^32`, read back
as a signed 32-bit integer. -/
def imul (a b : Int) : Int :=
  toInt32 ((toUint32 a * toUint32 b % 4294967296 : Nat) : Int)

/-! ## `bench_node.js`: FNV-1a -/

/-- One round of the loop of `fnv1a32`: `h ^= str.charCodeAt(i); h = Math.imul(h, 0x01000193)`. -/
def fnvRound (h : Int) (c : Nat) : Int :=
  imul (xor32 h (c : Int)) 16777619

/-- The function `fnv1a32` of `bench_node.js`. The loop over `i < str.length` reading
`str.charCodeAt(i)` is the left fold over the code units. -/
def fnv1a32 (str : JsString) : Nat :=
  let h0 : Int := (toUint32 2166136261 : Nat)
  let h := str.foldl fnvRound h0
  toUint32 h

/-- The reference FNV-1a of the specification, over unsigned residues: from `0x811c9dc5`,
`h ↦ ((h XOR c) * 0x01000193) mod 2^32`. -/
def fnv1a32Ref (str : JsString) : Nat :=
  str.foldl (fun (h c : Nat) => (h ^^^ c) * 16777619 % 4294967296) 2166136261

/-! ## Values produced by `JSON.parse` -/

/-- A JavaScript number: a finite double (a rational; `-0` is identified with `0`), an infinity
or `NaN`. -/
inductive JsNum where
  | fin (q : ℚ)
  | posInf
  | negInf
  | nan

/-- The comparison `a > b` on numbers; every comparison with `NaN` is false. -/
def JsNum.gt : JsNum → JsNum → Bool
  | .nan, _ => false
  | _, .nan => false
  | .fin p, .fin q => decide (q < p)
  | .posInf, .posInf => false
  | .posInf, _ => true
  | .negInf, _ => false
  | .fin _, .posInf => false
  | .fin _, .negInf => true

/-- A JavaScript value as `JSON.parse` builds it (plus `undefined`, the value of a property
that is absent). An object is the list of its own properties, each key once. -/
inductive JsVal where
  | undefined
  | null
  | bool (b : Bool)
  | num (x : JsNum)
  | str (s : JsString)
  | arr (items : List JsVal)
  | obj (props : List (JsString × JsVal))

/-- The results of the `typeof` operator. -/
inductive JsType where
  | undefined
  | object
  | boolean
  | number
  | string
  deriving DecidableEq, Repr

/-- The operator `typeof v`. -/
def typeof : JsVal → JsType
  | .undefined => .undefined
  | .null => .object
  | .bool _ => .boolean
  | .num _ => .number
  | .str _ => .string
  | .arr _ => .object
  | .obj _ => .object

/-- The property read `v.key` for the keys the program reads (`deviceId`, `ts`, `temp`,
`status`): a `TypeError` (`none`) on `null` and `undefined`, the own property of an object or
`undefined` when it has none, and `undefined` on primitives and arrays, which have no property
of these names. -/
def getProp (v : JsVal) (key : JsString) : Option JsVal :=
  match v with
  | .undefined => none
  | .null => none
  | .obj props => some ((props.lookup key).getD .undefined)
  | _ => some .undefined

/-! ## `bench_node.js`: the device map -/

/-- The per-device aggregate `{ count, alarms, checksum }`. -/
structure Agg where
  count : Nat
  alarms : Nat
  checksum : Nat
  deriving DecidableEq, Repr

/-- A `Map` from device identifier to aggregate, as the list of its entries in insertion
order. -/
abbrev DeviceMap := List (JsString × Agg)

/-- The method `agg.get(key)`: the value of the entry with this key, if there is one. -/
def mapGet : DeviceMap → JsString → Option Agg
  | [], _ => none
  | (k, a) :: rest, key => if k = key then some a else mapGet rest key

/-- The method `agg.set(key, a)`: the entry of an existing key is replaced in place, a new key
is appended. -/
def mapSet : DeviceMap → JsString → Agg → DeviceMap
  | [], key, a => [(key, a)]
  | (k, b) :: rest, key, a =>
    if k = key then (k, a) :: rest else (k, b) :: mapSet rest key a

/-! ## `bench_node.js`: `processBatch` -/

/-- The state of the loop of `processBatch`: the map `agg` and the counter `alarmCount`. -/
structure BatchState where
  agg : DeviceMap
  alarmCount : Nat
  deriving DecidableEq, Repr

/-- The value `{ devices, alarmCount, checksumTotal }` returned by `processBatch`. -/
structure BatchResult where
  devices : Nat
  alarmCount : Nat
  checksumTotal : Nat
  deriving DecidableEq, Repr

/-- One iteration of the loop of `processBatch` on the raw string `s`; `none` is a `throw`
(of `JSON.parse`, of a property read on `null`, or of the validation). The validation
`typeof obj.deviceId !== 'string' || typeof obj.ts !== 'number' || typeof obj.temp !== 'number'
|| typeof obj.status !== 'string'` passes exactly on the first pattern. -/
def processRecord (parse : JsString → Option JsVal) (st : BatchState) (s : JsString) :
    Option BatchState :=
  match parse s with
  | none => none
  | some obj =>
    match getProp obj (js "deviceId"), getProp obj (js "ts"), getProp obj (js "temp"),
        getProp obj (js "status") with
    | some (.str deviceId), some (.num _), some (.num temp), some (.str status) =>
      let isAlarm : Bool := temp.gt (.fin 95) || status == js "ALARM"
      let alarmCount := if isAlarm then st.alarmCount + 1 else st.alarmCount
      let a : Agg := (mapGet st.agg deviceId).getD { count := 0, alarms := 0, checksum := 0 }
      let a := { a with count := a.count + 1 }
      let a := if isAlarm then { a with alarms := a.alarms + 1 } else a
      let a := { a with checksum := toUint32 ((a.checksum + fnv1a32 s : Nat) : Int) }
      some { agg := mapSet st.agg deviceId a, alarmCount := alarmCount }
    | _, _, _, _ => none

/-- The reduction `[...agg.values()].reduce((t, a) => t + a.checksum, 0)`. -/
def sumChecksums (m : DeviceMap) : Nat :=
  m.foldl (fun (t : Nat) e => t + e.2.checksum) 0

/-- The loop `for (let i = 0; i < payloads.length; i++)` of `processBatch`. -/
def processLoop (parse : JsString → Option JsVal) :
    List JsString → BatchState → Option BatchState
  | [], st => some st
  | s :: rest, st =>
    match processRecord parse st s with
    | none => none
    | some st' => processLoop parse rest st'

/-- The function `processBatch` of `bench_node.js`, with `JSON.parse` as a parameter. -/
def processBatch (parse : JsString → Option JsVal) (payloads : List JsString) :
    Option BatchResult :=
  match processLoop parse payloads { agg := [], alarmCount := 0 } with
  | none => none
  | some st =>
    some { devices := st.agg.length
           alarmCount := st.alarmCount
           checksumTotal := toUint32 ((sumChecksums st.agg : Nat) : Int) }

/-! ## `bench_node.js`: `genPayloads` -/

/-- Fuelled worker of `decimal`: pushes the digits of `n`, least significant first, in front of
`acc`. -/
def decimalAux : Nat → Nat → List Nat → List Nat
  | 0, _, acc => acc
  | fuel + 1, n, acc =>
    if n / 10 = 0 then (48 + n % 10) :: acc
    else decimalAux fuel (n / 10) ((48 + n % 10) :: acc)

/-- Number-to-string conversion of a non-negative integer below `10^21`: its decimal digits. -/
def decimal (n : Nat) : JsString :=
  decimalAux (n + 1) n []

/-- JSON quoting of a string made of characters that need no escape (letters, digits, `-`),
the only strings the generator serializes. -/
def quote (s : JsString) : JsString :=
  [34] ++ s ++ [34]

/-- The call `JSON.stringify({ deviceId, ts, temp, status, payload })`: the members in insertion
order, no white space. -/
def stringifyRecord (deviceId : JsString) (ts temp : Nat) (status payload : JsString) :
    JsString :=
  js "\x7b\"deviceId\":" ++ quote deviceId ++ js ",\"ts\":" ++ decimal ts
    ++ js ",\"temp\":" ++ decimal temp ++ js ",\"status\":" ++ quote status
    ++ js ",\"payload\":" ++ quote payload ++ js "\x7d"

/-- The element `arr[i]` built by `genPayloads` when `Date.now()` returns `ts`. For
`devices = 0` the program computes `i % 0 = NaN`; the embedding is meant for `devices ≥ 1`. -/
def genPayload (devices i ts : Nat) : JsString :=
  let dev := js "dev-" ++ decimal (i % devices)
  let temp := i % 120
  let status := if temp > 95 ∧ i % 7 = 0 then js "ALARM" else js "OK"
  stringifyRecord dev ts temp status (List.replicate 64 120)

/-- The function `genPayloads(n, devices)`; `now i` is the value `Date.now()` returns in
iteration `i`. -/
def genPayloads (now : Nat → Nat) (n : Nat) (devices : Nat := 1000) : List JsString :=
  (List.range n).map (fun i => genPayload devices i (now i))

/-! ## `bench_node.js`: `runSingle`, the worker and `runWorkers`

Timing (`performance.now()`, the fields `ms` and `rps`) is not modelled. -/

/-- How a run ends: with a value, with an uncaught exception, or still running when the fuel of
the embedding is used up. -/
inductive Outcome (α : Type) where
  | done (a : α)
  | threw
  | outOfFuel
  deriving DecidableEq, Repr

/-- The loop `while (processed < total)` shared by `runSingle` and the worker, from the state
`(processed, checksum)`; it returns the final state. `now k` is the value of the `k`-th call of
`Date.now()` in this thread, so the batch generated at `processed` reads `now (processed + i)`. -/
def batchLoop (parse : JsString → Option JsVal) (now : Nat → Nat) (batch total : Nat) :
    Nat → Nat → Nat → Outcome (Nat × Nat)
  | 0, _, _ => .outOfFuel
  | fuel + 1, processed, checksum =>
    if processed < total then
      let n := min batch (total - processed)
      let payloads := genPayloads (fun i => now (processed + i)) n
      match processBatch parse payloads with
      | none => .threw
      | some res =>
        batchLoop parse now batch total fuel (processed + n)
          (toUint32 ((checksum + res.checksumTotal : Nat) : Int))
    else .done (processed, checksum)

/-- The line printed by the telemetry benchmark: `workers` (only on the multi-worker path),
`total` and `checksum`. -/
structure Report where
  workers : Option Nat
  total : Nat
  checksum : Nat
  deriving DecidableEq, Repr

/-- The function `runSingle(total, batch)`. -/
def runSingle (parse : JsString → Option JsVal) (now : Nat → Nat) (fuel : Nat)
    (total : Nat := 1000000) (batch : Nat := 10000) : Outcome Report :=
  match batchLoop parse now batch total fuel 0 0 with
  | .done st => .done { workers := none, total := total, checksum := st.2 }
  | .threw => .threw
  | .outOfFuel => .outOfFuel

/-- The message `{ total, ms, checksum }` a worker posts. -/
structure WorkerMessage where
  total : Nat
  checksum : Nat
  deriving DecidableEq, Repr

/-- The worker branch of the module (`isMainThread` false), started with
`workerData.count = count`. -/
def workerMain (parse : JsString → Option JsVal) (now : Nat → Nat) (fuel : Nat) (count : Nat) :
    Outcome WorkerMessage :=
  let total := count
  match batchLoop parse now 10000 total fuel 0 0 with
  | .done st => .done { total := total, checksum := st.2 }
  | .threw => .threw
  | .outOfFuel => .outOfFuel

/-- The call `await Promise.all(promises)`: the results in the order of the promises; it rejects
when a promise rejects. -/
def awaitAll {α : Type} : List (Outcome α) → Outcome (List α)
  | [] => .done []
  | r :: rs =>
    match awaitAll rs with
    | .threw => .threw
    | .outOfFuel =>
      match r with
      | .threw => .threw
      | _ => .outOfFuel
    | .done as =>
      match r with
      | .done a => .done (a :: as)
      | .threw => .threw
      | .outOfFuel => .outOfFuel

/-- The reduction `results.reduce((t, r) => t + r.total, 0)`. -/
def mergeTotals (results : List WorkerMessage) : Nat :=
  results.foldl (fun (t : Nat) r => t + r.total) 0

/-- The reduction `results.reduce((t, r) => (t + r.checksum) >>> 0, 0)`. -/
def mergeChecksums (results : List WorkerMessage) : Nat :=
  results.foldl (fun (t : Nat) r => toUint32 ((t + r.checksum : Nat) : Int)) 0

/-- The function `runWorkers(total, workers)`; `nows w` is the clock read by worker `w` (by the
main thread for `w = 0` on the single path). -/
def runWorkers (parse : JsString → Option JsVal) (nows : Nat → Nat → Nat) (fuel : Nat)
    (total : Nat := 1000000) (workers : Nat := 1) : Outcome Report :=
  if workers ≤ 1 then runSingle parse (nows 0) fuel total
  else
    let per := total / workers
    let promises := (List.range workers).map (fun w => workerMain parse (nows w) fuel per)
    match awaitAll promises with
    | .done results =>
      let totalDone := mergeTotals results
      let checksum := mergeChecksums results
      .done { workers := some workers, total := totalDone, checksum := checksum }
    | .threw => .threw
    | .outOfFuel => .outOfFuel

end Bench

/-! ## `bench_algo_node.js`: batches and workers

The floating-point quantities live in a field `F`; `Math.sin` and `Math.cos` are parameters.
`processBatch` and the workers take the risk kernel as a parameter `risk` whose results are
numbers; `calculateSensorRisk` itself is embedded further down, with `NaN` tracked. Checksums
are integers. The rounding of the printed line (`toFixed`) and timing are not modelled. -/

namespace Algo

open Bench (JsString js decimal)

/-- The operator `a % b` on integers: the remainder takes the sign of the dividend. -/
def jsRem (a b : Int) : Int :=
  Int.tmod a b

/-- A generated sensor reading. -/
structure Sensor (F : Type) where
  deviceId : JsString
  temperature : F
  humidity : F
  pressure : F
  vibration : F

/-- The value `{ riskScore, failureProbability, checksum }` of `calculateSensorRisk`. -/
structure RiskResult (F : Type) where
  riskScore : F
  failureProbability : F
  checksum : Int

/-- The value `{ avgRisk, avgFailureProb, checksum }` of `processBatch`. -/
structure BatchResult (F : Type) where
  avgRisk : F
  avgFailureProb : F
  checksum : Int

/-- The function `generateSensorData(count, devicePrefix)`. -/
def generateSensorData {F : Type} [Field F] (sin cos : F → F) (count : Nat)
    (devicePrefix : JsString := js "sensor") : List (Sensor F) :=
  (List.range count).map (fun i =>
    { deviceId := devicePrefix ++ js "-" ++ decimal i
      temperature := 20 + ((i % 60 : Nat) : F) + sin ((i : F) * 0.1) * 5
      humidity := 40 + ((i % 40 : Nat) : F) + cos ((i : F) * 0.05) * 10
      pressure := 1000 + ((i % 50 : Nat) : F) + sin ((i : F) * 0.02) * 15
      vibration := 1 + ((i % 10 : Nat) : F) + cos ((i : F) * 0.03) * 2 })

/-- The state `(totalRisk, totalFailureProb, checksum)` of the loop of `processBatch` after one
more sensor. -/
def batchStep {F : Type} [Field F] (risk : JsString → F → F → F → F → Nat → RiskResult F)
    (iterations : Nat) (st : F × F × Int) (sensor : Sensor F) : F × F × Int :=
  let result := risk sensor.deviceId sensor.temperature sensor.humidity sensor.pressure
    sensor.vibration iterations
  (st.1 + result.riskScore, st.2.1 + result.failureProbability,
    jsRem (st.2.2 + result.checksum) 1000000000)

/-- The function `processBatch(sensors, iterations)`. -/
def processBatch {F : Type} [Field F] (risk : JsString → F → F → F → F → Nat → RiskResult F)
    (sensors : List (Sensor F)) (iterations : Nat) : BatchResult F :=
  let st := sensors.foldl (batchStep risk iterations) (0, 0, 0)
  { avgRisk := st.1 / (sensors.length : F)
    avgFailureProb := st.2.1 / (sensors.length : F)
    checksum := st.2.2 }

/-- The line printed by the risk benchmark, without timing. -/
structure Report (F : Type) where
  workers : Option Nat
  sensors : Nat
  iterations : Nat
  avgRisk : F
  checksum : Int

/-- The function `runSingle(sensorCount, iterations)`. -/
def runSingle {F : Type} [Field F] (sin cos : F → F)
    (risk : JsString → F → F → F → F → Nat → RiskResult F)
    (sensorCount : Nat := 100) (iterations : Nat := 50000) : Report F :=
  let sensors := generateSensorData sin cos sensorCount
  let result := processBatch risk sensors iterations
  { workers := none, sensors := sensorCount, iterations := iterations,
    avgRisk := result.avgRisk, checksum := result.checksum }

/-- The message `{ sensors, ms, avgRisk, checksum }` a worker posts. -/
structure WorkerMessage (F : Type) where
  sensors : Nat
  avgRisk : F
  checksum : Int

/-- The worker branch of the module, started with
`workerData = { sensorCount, iterations, workerId }`. -/
def workerMain {F : Type} [Field F] (sin cos : F → F)
    (risk : JsString → F → F → F → F → Nat → RiskResult F)
    (sensorCount iterations workerId : Nat) : WorkerMessage F :=
  let sensors := generateSensorData sin cos sensorCount (js "sensor-w" ++ decimal workerId)
  let result := processBatch risk sensors iterations
  { sensors := sensorCount, avgRisk := result.avgRisk, checksum := result.checksum }

/-- The reduction `results.reduce((t, r) => (t + r.checksum) % 1000000000, 0)`. -/
def mergeChecksums {F : Type} (results : List (WorkerMessage F)) : Int :=
  results.foldl (fun (t : Int) r => jsRem (t + r.checksum) 1000000000) 0

/-- The function `runWorkers(sensorCount, iterations, workers)`. -/
def runWorkers {F : Type} [Field F] (sin cos : F → F)
    (risk : JsString → F → F → F → F → Nat → RiskResult F)
    (sensorCount : Nat := 100) (iterations : Nat := 50000) (workers : Nat := 1) : Report F :=
  if workers ≤ 1 then runSingle sin cos risk sensorCount iterations
  else
    let sensorsPerWorker := sensorCount / workers
    let results := (List.range workers).map (fun w =>
      workerMain sin cos risk sensorsPerWorker iterations w)
    let totalSensors := results.foldl (fun (t : Nat) r => t + r.sensors) 0
    let avgRisk := results.foldl (fun (t : F) r => t + r.avgRisk) 0 / (results.length : F)
    let checksum := mergeChecksums results
    { workers := some workers, sensors := totalSensors, iterations := iterations,
      avgRisk := avgRisk, checksum := checksum }

/-! ## `bench_algo_node.js`: `PRNG` and `calculateSensorRisk`

Numbers are elements of an ordered field `F` (the real-number reading of the doubles) and the
value `none` of an `Option F` is `NaN`; overflow to an infinity is not modelled. The seed of the
generator is a non-negative integer, on which the arithmetic of `next()` is exact as long as
`seed * 9301 + 49297` is at most `2^53`. -/

/-- The class `PRNG`: its field `seed`. -/
structure PRNG where
  seed : Nat := 12345
  deriving DecidableEq, Repr

/-- The state update of `next()`, as the specification words it:
`seed ↦ (seed * 9301 + 49297) mod 233280`. -/
def lcg (seed : Nat) : Nat :=
  (seed * 9301 + 49297) % 233280

/-- The method `PRNG.next()`: the value returned and the generator after the call. -/
def PRNG.next {F : Type} [Field F] (p : PRNG) : F × PRNG :=
  let seed := (p.seed * 9301 + 49297) % 233280
  ((seed : F) / 233280, { seed := seed })

/-- The values returned by the first `n` calls of `next()`, in order. -/
def PRNG.outputs {F : Type} [Field F] (p : PRNG) : Nat → List F
  | 0 => []
  | n + 1 => (p.next : F × PRNG).1 :: PRNG.outputs (p.next : F × PRNG).2 n

/-- The functions of `Math` that the kernel calls. `sqrt`, `log` and `pow` return `none` where
the function of the language returns `NaN`. -/
structure MathOps (F : Type) where
  exp : F → F
  sin : F → F
  cos : F → F
  sqrt : F → Option F
  log : F → Option F
  pow : F → F → Option F

/-- The seed expression `deviceId.charCodeAt(0) * 1000`; `NaN` on the empty string. -/
def seedOf (deviceId : JsString) : Option Nat :=
  match deviceId with
  | [] => none
  | c :: _ => some (c * 1000)

/-- The variables of the loop of `calculateSensorRisk`: `riskScore`, `failureProbability` (it
is only ever increased by a number that passed a comparison, so it is never `NaN`) and the
generator. -/
structure RiskState (F : Type) where
  riskScore : Option F
  failureProbability : F
  prng : PRNG

/-- The inner loop `for (let j = 1; j <= 10; j++)` of `calculateSensorRisk`. -/
def harmonics {F : Type} [LinearOrderedField F] (ops : MathOps F) (stressCombination : Option F)
    (failureProbability : F) (riskScore : Option F) : Option F :=
  [1, 2, 3, 4, 5, 6, 7, 8, 9, 10].foldl (fun (r : Option F) (j : Nat) => do
    let r ← r
    let s ← stressCombination
    pure (r + ops.sin ((j : F) * s) * ops.cos ((j : F) * failureProbability) / (j : F)))
    riskScore

/-- Iteration `i` of the Monte Carlo loop of `calculateSensorRisk`. -/
def riskIteration {F : Type} [LinearOrderedField F] (ops : MathOps F)
    (temperature humidity pressure vibration : F) (st : RiskState F) (i : Nat) : RiskState F :=
  let tempStress : F := ops.exp ((temperature - 25) / 15) * (1 + 0.1 * ops.sin ((i : F) * 0.01))
  let humidityStress : Option F :=
    (ops.pow (humidity / 100) 2).map (fun x => x * (1 + 0.05 * ops.cos ((i : F) * 0.02)))
  let pressureStress : F := |pressure - 1013.25| / 50 * (1 + 0.03 * ops.sin ((i : F) * 0.015))
  let vibrationStress : Option F :=
    (ops.sqrt vibration).map (fun x => x * (1 + 0.08 * ops.cos ((i : F) * 0.008)))
  let drawn : F × PRNG := st.prng.next
  let randomFactor : F := drawn.1
  let stressCombination : Option F := do
    let h ← humidityStress
    let v ← vibrationStress
    pure (tempStress * h + pressureStress * v)
  let failureThreshold : F := 2.5 + randomFactor * 0.5
  let shape : F := 1.5 + randomFactor * 0.3
  let scale : F := 100 + randomFactor * 20
  let weibullProb : Option F := do
    let s ← stressCombination
    let p ← ops.pow (s / scale) shape
    pure (1 - ops.exp (-p))
  let failureProbability : F :=
    match weibullProb with
    | some w => if w > failureThreshold / 10 then st.failureProbability + w
      else st.failureProbability
    | none => st.failureProbability
  let riskScore : Option F := do
    let r ← st.riskScore
    let s ← stressCombination
    let w ← weibullProb
    let a ← ops.pow s 1.8
    let b ← ops.log (1 + w)
    pure (r + a * b)
  let riskScore : Option F :=
    if i % 1000 = 0 then harmonics ops stressCombination failureProbability riskScore
    else riskScore
  { riskScore := riskScore, failureProbability := failureProbability, prng := drawn.2 }

/-- The Monte Carlo loop `for (let i = 0; i < iterations; i++)` from the initial state
`riskScore = 0`, `failureProbability = 0` and a generator seeded with `seed`. -/
def riskLoop {F : Type} [LinearOrderedField F] (ops : MathOps F) (seed : Nat)
    (temperature humidity pressure vibration : F) (iterations : Nat) : RiskState F :=
  (List.range iterations).foldl (riskIteration ops temperature humidity pressure vibration)
    { riskScore := some 0, failureProbability := 0, prng := { seed := seed } }

/-- The value returned by `calculateSensorRisk`, each field a number or `NaN`. -/
structure RiskOutcome (F : Type) where
  riskScore : Option F
  failureProbability : Option F
  checksum : Option Int

/-- The function `calculateSensorRisk`. With an empty `deviceId` the seed is `NaN`, so is every
random factor and with it `riskScore`; with `iterations = 0` both quotients are `0 / 0`. The
checksum is taken from the accumulated `riskScore`, before the division. -/
def calculateSensorRisk {F : Type} [LinearOrderedField F] [FloorRing F] (ops : MathOps F)
    (deviceId : JsString) (temperature humidity pressure vibration : F)
    (iterations : Nat := 50000) : RiskOutcome F :=
  match seedOf deviceId with
  | none =>
    if iterations = 0 then { riskScore := none, failureProbability := none, checksum := some 0 }
    else { riskScore := none, failureProbability := some 0, checksum := none }
  | some seed =>
    let st := riskLoop ops seed temperature humidity pressure vibration iterations
    { riskScore := if iterations = 0 then none
        else st.riskScore.map (fun r => r / (iterations : F))
      failureProbability := if iterations = 0 then none
        else some (st.failureProbability / (iterations : F))
      checksum := st.riskScore.map (fun r => jsRem ⌊r * 1000000⌋ 1000000) }

/-- A kernel that returns the checksum `999999` for every sensor. -/
def sampleKernel (_deviceId : JsString) (_temperature _humidity _pressure _vibration : ℚ)
    (_iterations : Nat) : RiskResult ℚ :=
  { riskScore := 0, failureProbability := 0, checksum := 999999 }

/-- Two sensor readings. -/
def sampleSensors : List (Sensor ℚ) :=
  [{ deviceId := js "sensor-0", temperature := 25, humidity := 50, pressure := 1013,
     vibration := 3 },
   { deviceId := js "sensor-1", temperature := 26, humidity := 51, pressure := 1014,
     vibration := 4 }]

/-- A worker message with checksum `c`. -/
def sampleMessage (c : Int) : WorkerMessage ℚ :=
  { sensors := 50, avgRisk := 0, checksum := c }

/-- The merge of the specification: the left fold of `t ↦ (t + c) % 1000000000` from `0` over
a list of integer checksums. -/
def foldChecksums (cs : List Int) : Int :=
  cs.foldl (fun (t : Int) c => jsRem (t + c) 1000000000) 0

/-- The checksum `calculateSensorRisk` returns for a sensor. -/
def sensorChecksum {F : Type} (risk : JsString → F → F → F → F → Nat → RiskResult F)
    (iterations : Nat) (sensor : Sensor F) : Int :=
  (risk sensor.deviceId sensor.temperature sensor.humidity sensor.pressure sensor.vibration
    iterations).checksum

end Algo

namespace Bench

/-! ## A reference `JSON.parse` for a fragment of JSON

The theorems below hold for every `parse`. To evaluate the program on concrete batches, the
following parser reads the fragment of JSON made of objects, arrays, strings without escape
sequences, integer literals up to `2^53`, `true`, `false` and `null`, with white space, and
builds the value `JSON.parse` builds for such a text; on any other text it returns `none`. -/

/-- JSON white space: space, tab, line feed, carriage return. -/
def isWs (c : Nat) : Bool :=
  c == 32 || c == 9 || c == 10 || c == 13

/-- Drops leading white space. -/
def skipWs : List Nat → List Nat
  | [] => []
  | c :: cs => if isWs c then skipWs cs else c :: cs

/-- Reads a string after its opening quote, up to the closing quote; `acc` holds the code
units read so far, last first. -/
def parseStringBody : List Nat → List Nat → Option (JsString × List Nat)
  | [], _ => none
  | c :: cs, acc =>
    if c = 34 then some (acc.reverse, cs)
    else if c = 92 ∨ c < 32 then none
    else parseStringBody cs (c :: acc)

/-- Reads a run of decimal digits, accumulating their value. -/
def parseDigits : List Nat → Nat → Nat × List Nat
  | [], acc => (acc, [])
  | c :: cs, acc =>
    if 48 ≤ c ∧ c ≤ 57 then parseDigits cs (10 * acc + (c - 48)) else (acc, c :: cs)

/-- Rejects a number that continues with a fraction or an exponent, or that is too large to be
an exact double. -/
def finishInt (neg : Bool) (v : Nat × List Nat) : Option (JsVal × List Nat) :=
  match v.2 with
  | 46 :: _ => none
  | 101 :: _ => none
  | 69 :: _ => none
  | rest =>
    if v.1 ≤ 9007199254740992 then
      some (.num (.fin (if neg then - (v.1 : ℚ) else (v.1 : ℚ))), rest)
    else none

/-- Reads the digits of an integer literal (no leading zero). -/
def parseInt (neg : Bool) : List Nat → Option (JsVal × List Nat)
  | [] => none
  | c :: cs =>
    if c = 48 then
      match cs with
      | d :: _ => if 48 ≤ d ∧ d ≤ 57 then none else finishInt neg (0, cs)
      | [] => finishInt neg (0, cs)
    else if 49 ≤ c ∧ c ≤ 57 then finishInt neg (parseDigits (c :: cs) 0)
    else none

/-- Defines the property `key` of an object under construction: a repeated key keeps its
place and takes the later value. -/
def setProp : List (JsString × JsVal) → JsString → JsVal → List (JsString × JsVal)
  | [], key, v => [(key, v)]
  | (k, w) :: rest, key, v =>
    if k = key then (k, v) :: rest else (k, w) :: setProp rest key v

mutual
/-- Reads one JSON value. -/
def parseValue : Nat → List Nat → Option (JsVal × List Nat)
  | 0, _ => none
  | fuel + 1, cs =>
    match skipWs cs with
    | 123 :: rest =>
      match skipWs rest with
      | 125 :: rest' => some (.obj [], rest')
      | rest' => parseMembers fuel rest' []
    | 91 :: rest =>
      match skipWs rest with
      | 93 :: rest' => some (.arr [], rest')
      | rest' => parseElements fuel rest' []
    | 34 :: rest =>
      match parseStringBody rest [] with
      | some (str, rest') => some (.str str, rest')
      | none => none
    | 116 :: 114 :: 117 :: 101 :: rest => some (.bool true, rest)
    | 102 :: 97 :: 108 :: 115 :: 101 :: rest => some (.bool false, rest)
    | 110 :: 117 :: 108 :: 108 :: rest => some (.null, rest)
    | 45 :: rest => parseInt true rest
    | rest => parseInt false rest
/-- Reads the members of an object after `{`, up to and including `}`. -/
def parseMembers : Nat → List Nat → List (JsString × JsVal) → Option (JsVal × List Nat)
  | 0, _, _ => none
  | fuel + 1, cs, acc =>
    match skipWs cs with
    | 34 :: rest =>
      match parseStringBody rest [] with
      | some (key, rest1) =>
        match skipWs rest1 with
        | 58 :: rest2 =>
          match parseValue fuel rest2 with
          | some (v, rest3) =>
            match skipWs rest3 with
            | 44 :: rest4 => parseMembers fuel rest4 (setProp acc key v)
            | 125 :: rest4 => some (.obj (setProp acc key v), rest4)
            | _ => none
          | none => none
        | _ => none
      | none => none
    | _ => none
/-- Reads the elements of an array after `[`, up to and including `]`. -/
def parseElements : Nat → List Nat → List JsVal → Option (JsVal × List Nat)
  | 0, _, _ => none
  | fuel + 1, cs, acc =>
    match parseValue fuel cs with
    | some (v, rest) =>
      match skipWs rest with
      | 44 :: rest' => parseElements fuel rest' (acc ++ [v])
      | 93 :: rest' => some (.arr (acc ++ [v]), rest')
      | _ => none
    | none => none
end

/-- The reference parser: one value, then only white space. -/
def parseJson (s : JsString) : Option JsVal :=
  match parseValue (s.length + 1) s with
  | some (v, rest) => if skipWs rest = [] then some v else none
  | none => none

/-! ## Vocabulary of the specification for the telemetry kernel -/

/-- The type of the property `v.key`; `none` when reading it throws. -/
def fieldType (v : JsVal) (key : JsString) : Option JsType :=
  (getProp v key).map typeof

/-- A raw record is valid: it deserializes, `deviceId` is a string, `ts` a number, `temp` a
number and `status` a string. -/
def validRecord (parse : JsString → Option JsVal) (s : JsString) : Bool :=
  match parse s with
  | none => false
  | some obj =>
    fieldType obj (js "deviceId") == some .string && fieldType obj (js "ts") == some .number
      && fieldType obj (js "temp") == some .number
      && fieldType obj (js "status") == some .string

/-- The `deviceId` of a raw record (the empty string when it has none). -/
def deviceIdOf (parse : JsString → Option JsVal) (s : JsString) : JsString :=
  match parse s with
  | some obj =>
    match getProp obj (js "deviceId") with
    | some (.str d) => d
    | _ => []
  | none => []

/-- The record has `temp > 95`. -/
def tempAbove95 (parse : JsString → Option JsVal) (s : JsString) : Bool :=
  match parse s with
  | some obj =>
    match getProp obj (js "temp") with
    | some (.num t) => t.gt (.fin 95)
    | _ => false
  | none => false

/-- The record has `status == "ALARM"`. -/
def statusIsAlarm (parse : JsString → Option JsVal) (s : JsString) : Bool :=
  match parse s with
  | some obj =>
    match getProp obj (js "status") with
    | some (.str st) => st == js "ALARM"
    | _ => false
  | none => false

/-- The records of a batch that belong to device `d`. -/
def recordsOf (parse : JsString → Option JsVal) (payloads : List JsString) (d : JsString) :
    List JsString :=
  payloads.filter (fun s => decide (deviceIdOf parse s = d))

/-- The distinct device identifiers of a batch. -/
def deviceIds (parse : JsString → Option JsVal) (payloads : List JsString) : List JsString :=
  (payloads.map (deviceIdOf parse)).dedup

/-- The checksum of a device as the specification words it: the sum modulo `2^32` of
`fnv1a32(raw string)` over the records of the device. -/
def deviceChecksum (parse : JsString → Option JsVal) (payloads : List JsString)
    (d : JsString) : Nat :=
  ((recordsOf parse payloads d).map fnv1a32).sum % 4294967296

/-- The object that `JSON.stringify` serialized in `genPayloads`, as `JSON.parse` rebuilds
it. -/
def recordValue (deviceId : JsString) (ts temp : Nat) (status payload : JsString) : JsVal :=
  .obj [(js "deviceId", .str deviceId), (js "ts", .num (.fin (ts : ℚ))),
    (js "temp", .num (.fin (temp : ℚ))), (js "status", .str status),
    (js "payload", .str payload)]

/-- The object serialized in iteration `i` of `genPayloads` when `Date.now()` returns `ts`. -/
def genRecord (devices i ts : Nat) : JsVal :=
  recordValue (js "dev-" ++ decimal (i % devices)) ts (i % 120)
    (if i % 120 > 95 ∧ i % 7 = 0 then js "ALARM" else js "OK") (List.replicate 64 120)

/-- The update of the loop state of `processBatch` by one valid record, given its `deviceId`,
its alarm flag and the hash of its raw string. -/
def recordStep (st : BatchState) (deviceId : JsString) (isAlarm : Bool) (hash : Nat) :
    BatchState :=
  let alarmCount := if isAlarm then st.alarmCount + 1 else st.alarmCount
  let a : Agg := (mapGet st.agg deviceId).getD { count := 0, alarms := 0, checksum := 0 }
  let a := { a with count := a.count + 1 }
  let a := if isAlarm then { a with alarms := a.alarms + 1 } else a
  let a := { a with checksum := toUint32 ((a.checksum + hash : Nat) : Int) }
  { agg := mapSet st.agg deviceId a, alarmCount := alarmCount }

/-- The record raises an alarm: `temp > 95` or `status == "ALARM"`. -/
def isAlarmRecord (parse : JsString → Option JsVal) (s : JsString) : Bool :=
  tempAbove95 parse s || statusIsAlarm parse s

/-- The loop state of `processBatch` after a list of valid records. -/
def foldRecords (parse : JsString → Option JsVal) (payloads : List JsString)
    (st : BatchState) : BatchState :=
  payloads.foldl (fun st s => recordStep st (deviceIdOf parse s) (isAlarmRecord parse s)
    (fnv1a32 s)) st

/-- The aggregate of one more record of the device. -/
def bump (a : Agg) (isAlarm : Bool) (hash : Nat) : Agg :=
  { count := a.count + 1
    alarms := if isAlarm then a.alarms + 1 else a.alarms
    checksum := (a.checksum + hash) % 4294967296 }

/-- The aggregate of device `d` as the specification words it: absent when the batch has no
record of `d`, else the number of its records, the number of its alarms and the sum modulo
`2^32` of the hashes of its raw strings. -/
def aggOf (parse : JsString → Option JsVal) (payloads : List JsString) (d : JsString) :
    Option Agg :=
  if recordsOf parse payloads d = [] then none
  else some { count := (recordsOf parse payloads d).length
              alarms := (recordsOf parse payloads d).countP (isAlarmRecord parse)
              checksum := deviceChecksum parse payloads d }

/-! ## Sample batches -/

/-- A valid batch of three records over two devices: one alarm by temperature, one by
status. -/
def sampleBatch : List JsString :=
  [js "\x7b\"deviceId\":\"a\",\"ts\":1,\"temp\":96,\"status\":\"OK\"\x7d",
   js "\x7b\"deviceId\":\"b\",\"ts\":2,\"temp\":3,\"status\":\"ALARM\"\x7d",
   js "\x7b\"deviceId\":\"a\",\"ts\":3,\"temp\":3,\"status\":\"OK\"\x7d"]

/-- A record whose `deviceId` is a number. -/
def badDeviceId : JsString :=
  js "\x7b\"deviceId\":5,\"ts\":1,\"temp\":3,\"status\":\"OK\"\x7d"

/-- A record whose `ts` is a string. -/
def badTs : JsString :=
  js "\x7b\"deviceId\":\"a\",\"ts\":\"1\",\"temp\":3,\"status\":\"OK\"\x7d"

/-- A record without `status`. -/
def noStatus : JsString :=
  js "\x7b\"deviceId\":\"a\",\"ts\":1,\"temp\":3\x7d"

/-- A clock for worker `w`: the `k`-th call of `Date.now()` returns
`1700000000000 + 1000 * w + k`. -/
def sampleClock (w k : Nat) : Nat :=
  1700000000000 + 1000 * w + k

/-! ## The batching loop with its trace -/

/-- The loop `batchLoop` with a ghost trace: the same control flow and the same state, plus the
list of the batch sizes `n` of the iterations, in order. -/
def batchLoopTrace (parse : JsString → Option JsVal) (now : Nat → Nat) (batch total : Nat) :
    Nat → Nat → Nat → Outcome (Nat × Nat × List Nat)
  | 0, _, _ => .outOfFuel
  | fuel + 1, processed, checksum =>
    if processed < total then
      let n := min batch (total - processed)
      let payloads := genPayloads (fun i => now (processed + i)) n
      match processBatch parse payloads with
      | none => .threw
      | some res =>
        match batchLoopTrace parse now batch total fuel (processed + n)
            (toUint32 ((checksum + res.checksumTotal : Nat) : Int)) with
        | .done st => .done (st.1, st.2.1, n :: st.2.2)
        | .threw => .threw
        | .outOfFuel => .outOfFuel
    else .done (processed, checksum, [])

/-- Forgets the trace. -/
def eraseTrace : Outcome (Nat × Nat × List Nat) → Outcome (Nat × Nat)
  | .done st => .done (st.1, st.2.1)
  | .threw => .threw
  | .outOfFuel => .outOfFuel

/-! ## Lemmas on the 32-bit operators -/

theorem toUint32_lt (x : Int) : toUint32 x < 4294967296 := by
  unfold toUint32; omega

theorem toUint32_natCast (n : Nat) : toUint32 (n : Int) = n % 4294967296 := by
  unfold toUint32; omega

/-- The definition of `ToInt32` in the language standard: reduce modulo `2^32`, then subtract
`2^32` from a residue that is at least `2^31`. -/
theorem toInt32_eq (x : Int) :
    toInt32 x
      = if x % 4294967296 ≥ 2147483648 then x % 4294967296 - 4294967296 else x % 4294967296 := by
  unfold toInt32; split <;> omega

theorem toUint32_add_natCast (a b : Nat) :
    toUint32 ((a : Int) + (b : Int)) = (a + b) % 4294967296 := by
  unfold toUint32; omega

theorem toUint32_toInt32 (x : Int) : toUint32 (toInt32 x) = toUint32 x := by
  unfold toUint32 toInt32; omega

theorem xor_mod_two_pow32 (a b : Nat) :
    (a ^^^ b) % 4294967296 = (a % 4294967296) ^^^ (b % 4294967296) := by
  have h : (4294967296 : Nat) = 2 ^ 32 := by norm_num
  rw [h]
  apply Nat.eq_of_testBit_eq
  intro i
  simp only [Nat.testBit_mod_two_pow, Nat.testBit_xor]
  by_cases hi : i < 32 <;> simp [hi]

theorem toUint32_xor32 (a : Int) (c : Nat) :
    toUint32 (xor32 a (c : Int)) = (toUint32 a ^^^ c) % 4294967296 := by
  unfold xor32
  rw [toUint32_toInt32, toUint32_natCast, toUint32_toInt32, toUint32_toInt32, toUint32_natCast,
    xor_mod_two_pow32, xor_mod_two_pow32]
  simp only [Nat.mod_mod]

theorem toUint32_imul (a b : Int) :
    toUint32 (imul a b) = toUint32 a * toUint32 b % 4294967296 := by
  unfold imul
  rw [toUint32_toInt32, toUint32_natCast, Nat.mod_mod]

theorem toUint32_fnvRound (h : Int) (c : Nat) :
    toUint32 (fnvRound h c) = (toUint32 h ^^^ c) * 16777619 % 4294967296 := by
  unfold fnvRound
  rw [toUint32_imul, toUint32_xor32]
  have : toUint32 16777619 = 16777619 := by decide
  rw [this, Nat.mod_mul_mod]

theorem toUint32_foldl_fnvRound (str : JsString) (h : Int) :
    toUint32 (str.foldl fnvRound h)
      = str.foldl (fun (h c : Nat) => (h ^^^ c) * 16777619 % 4294967296) (toUint32 h) := by
  induction str generalizing h with
  | nil => rfl
  | cons c cs ih => rw [List.foldl_cons, List.foldl_cons, ih, toUint32_fnvRound]

theorem fnv1a32_eq_fnv1a32Ref (str : JsString) : fnv1a32 str = fnv1a32Ref str := by
  unfold fnv1a32 fnv1a32Ref
  simp only
  rw [toUint32_foldl_fnvRound]
  rfl

/-! ## Claims C1 and C2 -/

/-- C1: `fnv1a32` reproduces the FNV-1a reference vectors, `0x811c9dc5` for the empty string
and `0xe40c292c` for the string `"a"`. -/
theorem fnv1a32_reference_vectors :
    fnv1a32 (js "") = 0x811c9dc5 ∧ fnv1a32 (js "a") = 0xe40c292c :=
  ⟨rfl, rfl⟩

/-- C2: for every string, the signed 32-bit implementation (`^=`, `Math.imul`, final `>>> 0`)
equals the unsigned modular FNV-1a fold of the specification, and the result lies in
`[0, 2^32)`. -/
theorem fnv1a32_eq_ref (str : JsString) :
    fnv1a32 str = fnv1a32Ref str ∧ fnv1a32 str < 2 ^ 32 := by
  exact ⟨fnv1a32_eq_fnv1a32Ref str, toUint32_lt _⟩

/-! ## The loop of `processBatch` -/

theorem processRecord_eq (parse : JsString → Option JsVal) (st : BatchState) (s : JsString) :
    processRecord parse st s
      = if validRecord parse s then
          some (recordStep st (deviceIdOf parse s)
            (tempAbove95 parse s || statusIsAlarm parse s) (fnv1a32 s))
        else none := by
  unfold processRecord validRecord deviceIdOf tempAbove95 statusIsAlarm fieldType
  cases parse s with
  | none => simp
  | some obj =>
    simp only
    generalize getProp obj (js "deviceId") = g1
    generalize getProp obj (js "ts") = g2
    generalize getProp obj (js "temp") = g3
    generalize getProp obj (js "status") = g4
    rcases g1 with _ | v1
    · simp
    cases v1 <;> simp [typeof]
    rcases g2 with _ | v2
    · simp
    cases v2 <;> simp [typeof]
    rcases g3 with _ | v3
    · simp
    cases v3 <;> simp [typeof]
    rcases g4 with _ | v4
    · simp
    cases v4 <;> simp [typeof, recordStep]

/-- The loop state after a list of valid records. -/
theorem processLoop_of_valid (parse : JsString → Option JsVal) (payloads : List JsString)
    (st : BatchState) (hv : ∀ s ∈ payloads, validRecord parse s = true) :
    processLoop parse payloads st
      = some (foldRecords parse payloads st) := by
  induction payloads generalizing st with
  | nil => rfl
  | cons s rest ih =>
    have hs : validRecord parse s = true := hv s (List.mem_cons_self _ _)
    rw [processLoop, processRecord_eq, if_pos hs]
    exact ih _ (fun x hx => hv x (List.mem_cons_of_mem _ hx))

/-- The loop throws exactly when some record is not valid. -/
theorem processLoop_eq_none_iff (parse : JsString → Option JsVal) (payloads : List JsString)
    (st : BatchState) :
    processLoop parse payloads st = none ↔ ∃ s ∈ payloads, validRecord parse s = false := by
  induction payloads generalizing st with
  | nil => simp [processLoop]
  | cons s rest ih =>
    rw [processLoop, processRecord_eq]
    cases hs : validRecord parse s with
    | false => simp [hs]
    | true => simp [hs, ih]

theorem processBatch_eq_none_iff (parse : JsString → Option JsVal) (payloads : List JsString) :
    processBatch parse payloads = none ↔ ∃ s ∈ payloads, validRecord parse s = false := by
  rw [← processLoop_eq_none_iff parse payloads { agg := [], alarmCount := 0 }]
  unfold processBatch
  cases processLoop parse payloads { agg := [], alarmCount := 0 } <;> simp

/-! ## The device map -/

theorem lookup_mapSet (m : DeviceMap) (k d : JsString) (a : Agg) :
    mapGet (mapSet m k a) d = if k = d then some a else mapGet m d := by
  induction m with
  | nil => simp [mapSet, mapGet]
  | cons e rest ih =>
    obtain ⟨k', b⟩ := e
    by_cases hk : k' = k
    · subst hk
      by_cases h : k' = d
      · simp [mapSet, mapGet, h]
      · simp [mapSet, mapGet, h]
    · by_cases h' : k' = d
      · subst h'
        have hk' : ¬ k = k' := fun h => hk h.symm
        simp [mapSet, mapGet, hk, hk']
      · simp [mapSet, mapGet, hk, h', ih]

theorem keys_mapSet (m : DeviceMap) (k : JsString) (a : Agg) :
    (mapSet m k a).map Prod.fst
      = if k ∈ m.map Prod.fst then m.map Prod.fst else m.map Prod.fst ++ [k] := by
  induction m with
  | nil => simp [mapSet]
  | cons e rest ih =>
    obtain ⟨k', b⟩ := e
    by_cases hk : k' = k
    · subst hk
      simp [mapSet]
    · have hk' : ¬ k = k' := fun h => hk h.symm
      by_cases hm : k ∈ rest.map Prod.fst
      · simp [mapSet, hk, hk', ih, hm]
      · simp [mapSet, hk, hk', ih, hm]

theorem nodup_keys_mapSet (m : DeviceMap) (k : JsString) (a : Agg)
    (h : (m.map Prod.fst).Nodup) : ((mapSet m k a).map Prod.fst).Nodup := by
  rw [keys_mapSet]
  by_cases hm : k ∈ m.map Prod.fst
  · rw [if_pos hm]; exact h
  · rw [if_neg hm]
    exact List.Nodup.append h (List.nodup_singleton k) (by simpa using hm)

theorem mem_keys_iff_lookup (m : DeviceMap) (d : JsString) :
    d ∈ m.map Prod.fst ↔ (mapGet m d).isSome = true := by
  induction m with
  | nil => simp [mapGet]
  | cons e rest ih =>
    obtain ⟨k', b⟩ := e
    by_cases h : k' = d
    · subst h; simp [mapGet]
    · have h' : ¬ d = k' := fun x => h x.symm
      rw [List.map_cons, List.mem_cons, ih]
      simp [mapGet, h, h']

theorem lookup_of_mem (m : DeviceMap) (h : (m.map Prod.fst).Nodup) (d : JsString) (a : Agg)
    (he : (d, a) ∈ m) : mapGet m d = some a := by
  induction m with
  | nil => simp at he
  | cons e' rest ih =>
    obtain ⟨k', b⟩ := e'
    rw [List.map_cons, List.nodup_cons] at h
    rcases List.mem_cons.1 he with heq | hr
    · cases heq
      simp [mapGet]
    · have hne : ¬ k' = d := by
        intro hk
        subst hk
        exact h.1 (List.mem_map.2 ⟨(k', a), hr, rfl⟩)
      simp [mapGet, hne, ih h.2 hr]

theorem sumChecksums_eq (m : DeviceMap) :
    sumChecksums m = (m.map (fun e => e.2.checksum)).sum := by
  unfold sumChecksums
  suffices h : ∀ (t : Nat), m.foldl (fun (t : Nat) e => t + e.2.checksum) t
      = t + (m.map (fun e => e.2.checksum)).sum by simpa using h 0
  induction m with
  | nil => simp
  | cons e rest ih => intro t; simp [ih, Nat.add_assoc]

theorem sum_mapSet (m : DeviceMap) (k : JsString) (a : Agg) :
    (((mapSet m k a).map (fun e => e.2.checksum)).sum
        + ((mapGet m k).getD { count := 0, alarms := 0, checksum := 0 }).checksum)
      = (m.map (fun e => e.2.checksum)).sum + a.checksum := by
  induction m with
  | nil => simp [mapSet, mapGet]
  | cons e rest ih =>
    obtain ⟨k', b⟩ := e
    by_cases hk : k' = k
    · subst hk
      simp [mapSet, mapGet]
      omega
    · simp only [mapSet, mapGet, hk, if_false, List.map_cons, List.sum_cons]
      omega

/-! ## The state after a batch of valid records -/

theorem recordStep_agg (st : BatchState) (d : JsString) (al : Bool) (h : Nat) :
    (recordStep st d al h).agg
      = mapSet st.agg d
          (bump ((mapGet st.agg d).getD { count := 0, alarms := 0, checksum := 0 }) al h) := by
  cases al <;> simp [recordStep, bump, toUint32_add_natCast]

theorem recordStep_alarmCount (st : BatchState) (d : JsString) (al : Bool) (h : Nat) :
    (recordStep st d al h).alarmCount = st.alarmCount + (if al then 1 else 0) := by
  cases al <;> simp [recordStep]

theorem foldRecords_append (parse : JsString → Option JsVal) (l : List JsString) (s : JsString)
    (st : BatchState) :
    foldRecords parse (l ++ [s]) st
      = recordStep (foldRecords parse l st) (deviceIdOf parse s) (isAlarmRecord parse s)
          (fnv1a32 s) := by
  simp [foldRecords, List.foldl_append]

theorem recordsOf_append (parse : JsString → Option JsVal) (l : List JsString) (s d : JsString) :
    recordsOf parse (l ++ [s]) d
      = recordsOf parse l d ++ (if deviceIdOf parse s = d then [s] else []) := by
  unfold recordsOf
  rw [List.filter_append]
  by_cases h : deviceIdOf parse s = d <;> simp [List.filter, h]

/-- The alarm counter after a batch of valid records. -/
theorem foldRecords_alarmCount (parse : JsString → Option JsVal) (l : List JsString) :
    (foldRecords parse l { agg := [], alarmCount := 0 }).alarmCount
      = l.countP (isAlarmRecord parse) := by
  induction l using List.reverseRecOn with
  | nil => rfl
  | append_singleton l s ih =>
    rw [foldRecords_append, recordStep_alarmCount, ih, List.countP_append]
    cases h : isAlarmRecord parse s <;> simp [List.countP_cons, h]

/-- The keys of the device map stay distinct. -/
theorem foldRecords_nodup (parse : JsString → Option JsVal) (l : List JsString) :
    ((foldRecords parse l { agg := [], alarmCount := 0 }).agg.map Prod.fst).Nodup := by
  induction l using List.reverseRecOn with
  | nil => simp [foldRecords]
  | append_singleton l s ih =>
    rw [foldRecords_append, recordStep_agg]
    exact nodup_keys_mapSet _ _ _ ih

/-- The entry of each device after a batch of valid records. -/
theorem foldRecords_mapGet (parse : JsString → Option JsVal) (l : List JsString)
    (d : JsString) :
    mapGet (foldRecords parse l { agg := [], alarmCount := 0 }).agg d = aggOf parse l d := by
  induction l using List.reverseRecOn with
  | nil => simp [foldRecords, mapGet, aggOf, recordsOf]
  | append_singleton l s ih =>
    rw [foldRecords_append, recordStep_agg, lookup_mapSet]
    by_cases hd : deviceIdOf parse s = d
    · subst hd
      rw [if_pos rfl, ih]
      unfold aggOf deviceChecksum
      rw [recordsOf_append, if_pos rfl]
      by_cases hm : recordsOf parse l (deviceIdOf parse s) = []
      · cases hal : isAlarmRecord parse s <;> simp [hm, bump, List.countP_cons, hal]
      · cases hal : isAlarmRecord parse s <;>
          simp [hm, bump, List.countP_append, List.countP_cons, Nat.add_mod, hal]
    · rw [if_neg hd, ih]
      unfold aggOf deviceChecksum
      rw [recordsOf_append, if_neg hd, List.append_nil]

/-- The sum of the per-device checksums is the sum of all hashes, modulo `2^32`. -/
theorem foldRecords_sum (parse : JsString → Option JsVal) (l : List JsString) :
    sumChecksums (foldRecords parse l { agg := [], alarmCount := 0 }).agg % 4294967296
      = (l.map fnv1a32).sum % 4294967296 := by
  induction l using List.reverseRecOn with
  | nil => simp [foldRecords, sumChecksums]
  | append_singleton l s ih =>
    rw [foldRecords_append, recordStep_agg, sumChecksums_eq]
    rw [sumChecksums_eq] at ih
    have h := sum_mapSet (foldRecords parse l { agg := [], alarmCount := 0 }).agg
      (deviceIdOf parse s)
      (bump ((mapGet (foldRecords parse l { agg := [], alarmCount := 0 }).agg
        (deviceIdOf parse s)).getD { count := 0, alarms := 0, checksum := 0 })
        (isAlarmRecord parse s) (fnv1a32 s))
    have hb : (bump ((mapGet (foldRecords parse l { agg := [], alarmCount := 0 }).agg
        (deviceIdOf parse s)).getD { count := 0, alarms := 0, checksum := 0 })
        (isAlarmRecord parse s) (fnv1a32 s)).checksum
          = (((mapGet (foldRecords parse l { agg := [], alarmCount := 0 }).agg
              (deviceIdOf parse s)).getD { count := 0, alarms := 0, checksum := 0 }).checksum
              + fnv1a32 s) % 4294967296 := rfl
    simp only [List.map_append, List.sum_append, List.map_cons, List.map_nil, List.sum_cons,
      List.sum_nil, Nat.add_zero]
    omega

theorem validRecord_eq_false_iff (parse : JsString → Option JsVal) (s : JsString) :
    validRecord parse s = false ↔
      (parse s = none ∨ ∃ obj, parse s = some obj ∧
        (fieldType obj (js "deviceId") ≠ some JsType.string
          ∨ fieldType obj (js "ts") ≠ some JsType.number
          ∨ fieldType obj (js "temp") ≠ some JsType.number
          ∨ fieldType obj (js "status") ≠ some JsType.string)) := by
  unfold validRecord
  cases parse s with
  | none => simp
  | some obj =>
    simp only [Bool.and_eq_false_iff, beq_eq_false_iff_ne, ne_eq, false_or, Option.some.injEq,
      exists_eq_left', reduceCtorEq]
    tauto

/-- Keys of the device map: the distinct device identifiers of the batch, in some order. -/
theorem foldRecords_keys_perm (parse : JsString → Option JsVal) (l : List JsString) :
    ((foldRecords parse l { agg := [], alarmCount := 0 }).agg.map Prod.fst).Perm
      (deviceIds parse l) := by
  refine (List.perm_ext_iff_of_nodup (foldRecords_nodup parse l) (List.nodup_dedup _)).2 ?_
  intro d
  rw [mem_keys_iff_lookup, foldRecords_mapGet]
  unfold aggOf recordsOf
  rw [List.mem_dedup, List.mem_map]
  by_cases h : List.filter (fun s => decide (deviceIdOf parse s = d)) l = []
  · simp only [h, if_true, Option.isSome_none, Bool.false_eq_true, false_iff]
    rintro ⟨x, hx, rfl⟩
    have : x ∈ List.filter (fun s => decide (deviceIdOf parse s = deviceIdOf parse x)) l :=
      List.mem_filter.2 ⟨hx, by simp⟩
    rw [h] at this
    exact absurd this (List.not_mem_nil _)
  · simp only [h, if_false, Option.isSome_some, true_iff]
    obtain ⟨x, hx⟩ := List.exists_mem_of_ne_nil _ h
    rw [List.mem_filter] at hx
    exact ⟨x, hx.1, by simpa using hx.2⟩

/-- Values of the device map: the aggregate of the device. -/
theorem foldRecords_value (parse : JsString → Option JsVal) (l : List JsString)
    (d : JsString) (a : Agg)
    (he : (d, a) ∈ (foldRecords parse l { agg := [], alarmCount := 0 }).agg) :
    aggOf parse l d = some a := by
  rw [← foldRecords_mapGet]
  exact lookup_of_mem _ (foldRecords_nodup parse l) d a he

theorem aggOf_checksum (parse : JsString → Option JsVal) (l : List JsString)
    (d : JsString) (a : Agg) (h : aggOf parse l d = some a) :
    a.checksum = deviceChecksum parse l d := by
  unfold aggOf at h
  split at h
  · exact absurd h (by simp)
  · cases h; rfl

/-- The sum over the device map is the sum of the per-device checksums of the
specification. -/
theorem foldRecords_sum_devices (parse : JsString → Option JsVal) (l : List JsString) :
    sumChecksums (foldRecords parse l { agg := [], alarmCount := 0 }).agg
      = ((deviceIds parse l).map (deviceChecksum parse l)).sum := by
  rw [sumChecksums_eq, ← (List.Perm.map (deviceChecksum parse l)
    (foldRecords_keys_perm parse l)).sum_eq, List.map_map]
  congr 1
  apply List.map_congr_left
  rintro ⟨d, a⟩ he
  exact aggOf_checksum parse l d a (foldRecords_value parse l d a he)

/-- The result of `processBatch` on a batch of valid records. -/
theorem processBatch_of_valid (parse : JsString → Option JsVal) (payloads : List JsString)
    (hv : ∀ s ∈ payloads, validRecord parse s = true) :
    processBatch parse payloads
      = some { devices := (foldRecords parse payloads { agg := [], alarmCount := 0 }).agg.length
               alarmCount := payloads.countP (isAlarmRecord parse)
               checksumTotal := (payloads.map fnv1a32).sum % 4294967296 } := by
  unfold processBatch
  rw [processLoop_of_valid parse payloads _ hv]
  simp only [toUint32_natCast, foldRecords_alarmCount, foldRecords_sum]

/-! ## Claims C3, C4 and C5 -/

/-- C3: the telemetry `processBatch` throws (no result at all) exactly when some record of the
batch fails to deserialize or has `deviceId` not a string, `ts` not a number, `temp` not a
number or `status` not a string; in particular a record whose `deviceId` is a number, whose
`ts` is a string or whose `status` is missing makes the batch throw wherever it sits. -/
theorem processBatch_throws_iff (parse : JsString → Option JsVal) (payloads : List JsString) :
    (processBatch parse payloads = none ↔
      ∃ s ∈ payloads, parse s = none ∨ ∃ obj, parse s = some obj ∧
        (fieldType obj (js "deviceId") ≠ some JsType.string
          ∨ fieldType obj (js "ts") ≠ some JsType.number
          ∨ fieldType obj (js "temp") ≠ some JsType.number
          ∨ fieldType obj (js "status") ≠ some JsType.string))
    ∧ ∀ (pre post : List JsString) (s : JsString) (obj : JsVal), parse s = some obj →
        (fieldType obj (js "deviceId") = some JsType.number
          ∨ fieldType obj (js "ts") = some JsType.string
          ∨ getProp obj (js "status") = some JsVal.undefined) →
        processBatch parse (pre ++ s :: post) = none := by
  constructor
  · rw [processBatch_eq_none_iff]
    constructor
    · rintro ⟨s, hs, h⟩
      exact ⟨s, hs, (validRecord_eq_false_iff parse s).1 h⟩
    · rintro ⟨s, hs, h⟩
      exact ⟨s, hs, (validRecord_eq_false_iff parse s).2 h⟩
  · intro pre post s obj hp hbad
    rw [processBatch_eq_none_iff]
    refine ⟨s, by simp, (validRecord_eq_false_iff parse s).2 (Or.inr ⟨obj, hp, ?_⟩)⟩
    rcases hbad with h | h | h
    · left; rw [h]; simp
    · right; left; rw [h]; simp
    · right; right; right; simp [fieldType, h, typeof]

/-- C3, on concrete batches: a record with a numeric `deviceId`, one with a string `ts` and one
without `status`, each between two valid records, make the batch throw. -/
theorem processBatch_throws_iff_witness :
    processBatch parseJson (sampleBatch ++ badDeviceId :: sampleBatch) = none
    ∧ processBatch parseJson ([] ++ badTs :: sampleBatch) = none
    ∧ processBatch parseJson (sampleBatch ++ noStatus :: []) = none :=
  ⟨(processBatch_throws_iff parseJson []).2 sampleBatch sampleBatch badDeviceId
      (.obj [(js "deviceId", .num (.fin 5)), (js "ts", .num (.fin 1)),
        (js "temp", .num (.fin 3)), (js "status", .str (js "OK"))]) rfl (Or.inl rfl),
   (processBatch_throws_iff parseJson []).2 [] sampleBatch badTs
      (.obj [(js "deviceId", .str (js "a")), (js "ts", .str (js "1")),
        (js "temp", .num (.fin 3)), (js "status", .str (js "OK"))]) rfl (Or.inr (Or.inl rfl)),
   (processBatch_throws_iff parseJson []).2 sampleBatch [] noStatus
      (.obj [(js "deviceId", .str (js "a")), (js "ts", .num (.fin 1)),
        (js "temp", .num (.fin 3))]) rfl (Or.inr (Or.inr rfl))⟩

/-- C4: on a batch of valid records `processBatch` returns, and its `checksumTotal` is the sum
modulo `2^32` of the per-device checksums, each the sum modulo `2^32` of `fnv1a32(raw string)`
over the records of the device; hence it is the sum modulo `2^32` of `fnv1a32` over all
records, whatever the grouping by device. -/
theorem checksumTotal_eq_sum (parse : JsString → Option JsVal) (payloads : List JsString)
    (hv : ∀ s ∈ payloads, validRecord parse s = true) :
    ∃ res, processBatch parse payloads = some res
      ∧ res.checksumTotal
          = ((deviceIds parse payloads).map (deviceChecksum parse payloads)).sum % 2 ^ 32
      ∧ res.checksumTotal = (payloads.map fnv1a32).sum % 2 ^ 32 := by
  refine ⟨_, processBatch_of_valid parse payloads hv, ?_, rfl⟩
  show (payloads.map fnv1a32).sum % 4294967296 = _
  rw [← foldRecords_sum parse payloads, foldRecords_sum_devices]
  rfl

/-- C4 on the sample batch. -/
theorem checksumTotal_eq_sum_witness :
    (∀ s ∈ sampleBatch, validRecord parseJson s = true)
    ∧ ∃ res, processBatch parseJson sampleBatch = some res
      ∧ res.checksumTotal
          = ((deviceIds parseJson sampleBatch).map (deviceChecksum parseJson sampleBatch)).sum
              % 2 ^ 32
      ∧ res.checksumTotal = (sampleBatch.map fnv1a32).sum % 2 ^ 32 :=
  ⟨by decide, checksumTotal_eq_sum parseJson sampleBatch (by decide)⟩

/-- C5: on a batch of valid records `processBatch` returns, and its `alarmCount` is the number
of records with `temp > 95` or `status == "ALARM"`. -/
theorem alarmCount_eq_count (parse : JsString → Option JsVal) (payloads : List JsString)
    (hv : ∀ s ∈ payloads, validRecord parse s = true) :
    ∃ res, processBatch parse payloads = some res
      ∧ res.alarmCount
          = (payloads.filter (fun s => tempAbove95 parse s || statusIsAlarm parse s)).length := by
  refine ⟨_, processBatch_of_valid parse payloads hv, ?_⟩
  show payloads.countP (isAlarmRecord parse) = _
  rw [List.countP_eq_length_filter]
  rfl

/-- C5 on the sample batch, which has two alarms. -/
theorem alarmCount_eq_count_witness :
    (∀ s ∈ sampleBatch, validRecord parseJson s = true)
    ∧ ∃ res, processBatch parseJson sampleBatch = some res
      ∧ res.alarmCount
          = (sampleBatch.filter
              (fun s => tempAbove95 parseJson s || statusIsAlarm parseJson s)).length :=
  ⟨by decide, alarmCount_eq_count parseJson sampleBatch (by decide)⟩

/-! ## The batching loop and the workers -/

theorem batchLoop_exit (parse : JsString → Option JsVal) (now : Nat → Nat) (batch total : Nat)
    (fuel processed checksum : Nat) (hf : 0 < fuel) (h : ¬ processed < total) :
    batchLoop parse now batch total fuel processed checksum = .done (processed, checksum) := by
  obtain ⟨f, rfl⟩ : ∃ f, fuel = f + 1 := ⟨fuel - 1, by omega⟩
  rw [batchLoop, if_neg h]

theorem mem_genPayloads (now : Nat → Nat) (n devices : Nat) (s : JsString) :
    s ∈ genPayloads now n devices ↔ ∃ i, i < n ∧ s = genPayload devices i (now i) := by
  unfold genPayloads
  rw [List.mem_map]
  constructor
  · rintro ⟨i, hi, rfl⟩
    exact ⟨i, List.mem_range.1 hi, rfl⟩
  · rintro ⟨i, hi, rfl⟩
    exact ⟨i, List.mem_range.2 hi, rfl⟩

/-- With a positive batch size, fuel above the number of records left and valid generated
records, the loop ends normally and has processed exactly `total`. -/
theorem batchLoop_done (parse : JsString → Option JsVal) (now : Nat → Nat) (batch total : Nat)
    (hb : 0 < batch)
    (hv : ∀ k, k < total → validRecord parse (genPayload 1000 (k % batch) (now k)) = true)
    (fuel processed checksum : Nat) (hdiv : batch ∣ processed)
    (hf : total - processed < fuel) :
    ∃ c, batchLoop parse now batch total fuel processed checksum
      = .done (max processed total, c) := by
  induction fuel generalizing processed checksum with
  | zero => omega
  | succ fuel ih =>
    by_cases h : processed < total
    · have hvalid : ∀ s ∈ genPayloads (fun i => now (processed + i))
          (min batch (total - processed)), validRecord parse s = true := by
        intro s hs
        obtain ⟨i, hi, rfl⟩ := (mem_genPayloads _ _ _ s).1 hs
        have hk : (processed + i) % batch = i := by
          obtain ⟨q, rfl⟩ := hdiv
          rw [Nat.mul_add_mod]
          exact Nat.mod_eq_of_lt (by omega)
        have := hv (processed + i) (by omega)
        rwa [hk] at this
      rw [batchLoop, if_pos h]
      simp only [processBatch_of_valid parse _ hvalid]
      generalize toUint32 _ = c'
      by_cases h2 : processed + min batch (total - processed) < total
      · have hn : min batch (total - processed) = batch := by omega
        obtain ⟨c, hc⟩ := ih (processed + min batch (total - processed)) c'
          (by rw [hn]; exact Dvd.dvd.add hdiv (dvd_refl _)) (by omega)
        refine ⟨c, ?_⟩
        rw [hc]
        congr 2
        omega
      · refine ⟨c', ?_⟩
        rw [batchLoop_exit parse now batch total fuel _ _ (by omega) h2]
        congr 2
        omega
    · refine ⟨checksum, ?_⟩
      rw [batchLoop, if_neg h]
      congr 2
      omega

theorem awaitAll_map_done {α β : Type} (f : β → Outcome α) (g : β → α) (l : List β)
    (h : ∀ x ∈ l, f x = .done (g x)) : awaitAll (l.map f) = .done (l.map g) := by
  induction l with
  | nil => rfl
  | cons x rest ih =>
    simp only [List.map_cons, awaitAll, h x (List.mem_cons_self _ _),
      ih (fun y hy => h y (List.mem_cons_of_mem _ hy))]

theorem foldl_add_const {α : Type} (f : α → Nat) (c : Nat) (l : List α)
    (h : ∀ x ∈ l, f x = c) (t : Nat) :
    l.foldl (fun (t : Nat) r => t + f r) t = t + l.length * c := by
  induction l generalizing t with
  | nil => simp
  | cons x rest ih =>
    rw [List.foldl_cons, ih (fun y hy => h y (List.mem_cons_of_mem _ hy)),
      h x (List.mem_cons_self _ _), List.length_cons]
    ring

theorem mul_div_eq_iff (t w : Nat) : w * (t / w) = t ↔ t % w = 0 := by
  have := Nat.div_add_mod t w
  omega

/-- A worker whose generated records are valid posts its message, having processed exactly
`count` records. -/
theorem workerMain_done (parse : JsString → Option JsVal) (now : Nat → Nat)
    (fuel count : Nat) (hf : count < fuel)
    (hv : ∀ k, k < count → validRecord parse (genPayload 1000 (k % 10000) (now k)) = true) :
    ∃ c, batchLoop parse now 10000 count fuel 0 0 = .done (count, c)
      ∧ workerMain parse now fuel count = .done { total := count, checksum := c } := by
  obtain ⟨c, hc⟩ := batchLoop_done parse now 10000 count (by norm_num) hv fuel 0 0
    (dvd_zero _) (by omega)
  rw [Nat.zero_max] at hc
  exact ⟨c, hc, by simp only [workerMain, hc]⟩

theorem runSingle_done (parse : JsString → Option JsVal) (now : Nat → Nat)
    (fuel total : Nat) (hf : total < fuel)
    (hv : ∀ k, k < total → validRecord parse (genPayload 1000 (k % 10000) (now k)) = true) :
    ∃ c, runSingle parse now fuel total = .done { workers := none, total := total, checksum := c } := by
  obtain ⟨c, hc⟩ := batchLoop_done parse now 10000 total (by norm_num) hv fuel 0 0
    (dvd_zero _) (by omega)
  exact ⟨c, by simp only [runSingle, hc]⟩

/-- The total reported by the risk benchmark. -/
theorem algo_runWorkers_sensors {F : Type} [Field F] (sin cos : F → F)
    (risk : JsString → F → F → F → F → Nat → Algo.RiskResult F) (t iterations w : Nat)
    (hw : 1 ≤ w) : (Algo.runWorkers sin cos risk t iterations w).sensors = w * (t / w) := by
  unfold Algo.runWorkers
  by_cases h : w ≤ 1
  · have : w = 1 := by omega
    subst this
    simp [Algo.runSingle]
  · rw [if_neg h]
    simp only
    rw [List.foldl_map]
    rw [foldl_add_const (fun (x : Nat) =>
      (Algo.workerMain sin cos risk (t / w) iterations x).sensors) (t / w) (List.range w)
      (fun x _ => rfl) 0]
    simp

/-! ## Claim C6 -/

/-- C6: for every total `T` and worker count `W ≥ 1`, both benchmarks report the merged total
`W * floor(T / W)`, which is `T` exactly when `T mod W = 0`; with `W ≥ 2` each telemetry worker
processes and reports `floor(T / W)` records. The telemetry run is shown to end normally, given
fuel above `T` and a `JSON.parse` that accepts the generated records. -/
theorem runWorkers_total (parse : JsString → Option JsVal) (nows : Nat → Nat → Nat)
    (fuel T W : Nat) (hW : 1 ≤ W) (hfuel : T < fuel)
    (hv : ∀ w, w < W → ∀ k, k < T / W →
      validRecord parse (genPayload 1000 (k % 10000) (nows w k)) = true) :
    (∃ r, runWorkers parse nows fuel T W = .done r ∧ r.total = W * (T / W)
        ∧ (r.total = T ↔ T % W = 0))
    ∧ (2 ≤ W → ∀ w, w < W →
        ∃ c, batchLoop parse (nows w) 10000 (T / W) fuel 0 0 = .done (T / W, c)
          ∧ workerMain parse (nows w) fuel (T / W) = .done { total := T / W, checksum := c })
    ∧ ∀ (F : Type) [Field F] (sin cos : F → F)
        (risk : JsString → F → F → F → F → Nat → Algo.RiskResult F) (iterations : Nat),
        (Algo.runWorkers sin cos risk T iterations W).sensors = W * (T / W)
          ∧ ((Algo.runWorkers sin cos risk T iterations W).sensors = T ↔ T % W = 0) := by
  have hper : T / W < fuel := lt_of_le_of_lt (Nat.div_le_self T W) hfuel
  have hworker : ∀ w, w < W →
      ∃ c, batchLoop parse (nows w) 10000 (T / W) fuel 0 0 = .done (T / W, c)
        ∧ workerMain parse (nows w) fuel (T / W) = .done { total := T / W, checksum := c } :=
    fun w hw => workerMain_done parse (nows w) fuel (T / W) hper (fun k hk => hv w hw k hk)
  refine ⟨?_, fun _ => hworker, ?_⟩
  · by_cases h1 : W ≤ 1
    · have hW1 : W = 1 := by omega
      subst hW1
      obtain ⟨c, hc⟩ := runSingle_done parse (nows 0) fuel T hfuel
        (fun k hk => hv 0 (by norm_num) k (by simpa using hk))
      refine ⟨_, by simp only [runWorkers, if_pos h1]; exact hc, ?_, ?_⟩
      · simp
      · simp [Nat.mod_one]
    · obtain ⟨g, hg⟩ : ∃ g : Nat → WorkerMessage, g = fun w =>
          { total := T / W
            checksum := (match batchLoop parse (nows w) 10000 (T / W) fuel 0 0 with
              | .done st => st.2
              | _ => 0) } := ⟨_, rfl⟩
      have hall : ∀ w ∈ List.range W, workerMain parse (nows w) fuel (T / W) = .done (g w) := by
        intro w hw
        obtain ⟨c, hc, hm⟩ := hworker w (List.mem_range.1 hw)
        rw [hm, hg]
        simp only [hc]
      have htot : mergeTotals ((List.range W).map g) = W * (T / W) := by
        unfold mergeTotals
        rw [List.foldl_map, foldl_add_const (fun x => (g x).total) (T / W) (List.range W)
          (fun x _ => by rw [hg]) 0]
        simp
      have hrun : runWorkers parse nows fuel T W
          = .done { workers := some W, total := mergeTotals ((List.range W).map g),
                    checksum := mergeChecksums ((List.range W).map g) } := by
        simp only [runWorkers, if_neg h1, awaitAll_map_done _ g _ hall]
      exact ⟨_, hrun, htot, by rw [htot]; exact mul_div_eq_iff T W⟩
  · intro F _ sin cos risk iterations
    rw [algo_runWorkers_sensors sin cos risk T iterations W hW]
    exact ⟨rfl, mul_div_eq_iff T W⟩

set_option maxRecDepth 20000 in
/-- C6 at `T = 5`, `W = 2` with the reference parser: the telemetry run ends normally and
reports `4` records, the risk run reports `4` sensors. -/
theorem runWorkers_total_witness :
    (1 ≤ 2) ∧ (5 < 6)
    ∧ (∀ w, w < 2 → ∀ k, k < 5 / 2 →
        validRecord parseJson (genPayload 1000 (k % 10000) (sampleClock w k)) = true)
    ∧ (∃ r, runWorkers parseJson sampleClock 6 5 2 = .done r ∧ r.total = 4)
    ∧ ∀ (risk : JsString → ℚ → ℚ → ℚ → ℚ → Nat → Algo.RiskResult ℚ),
        (Algo.runWorkers id id risk 5 50000 2).sensors = 4 := by
  have hv : ∀ w, w < 2 → ∀ k, k < 5 / 2 →
      validRecord parseJson (genPayload 1000 (k % 10000) (sampleClock w k)) = true := by
    decide
  have h := runWorkers_total parseJson sampleClock 6 5 2 (by decide) (by decide) hv
  obtain ⟨⟨r, hr, htot, _⟩, _, halgo⟩ := h
  exact ⟨by decide, by decide, hv, ⟨r, hr, htot⟩, fun risk => (halgo ℚ id id risk 50000).1⟩

/-! ## Claim C7 -/

theorem foldl_ushr (rs : List WorkerMessage) (t : Nat) (ht : t < 4294967296) :
    rs.foldl (fun (t : Nat) r => toUint32 ((t + r.checksum : Nat) : Int)) t
      = (t + (rs.map (fun r => r.checksum)).sum) % 4294967296 := by
  induction rs generalizing t with
  | nil => simp [Nat.mod_eq_of_lt ht]
  | cons r rest ih =>
    rw [List.foldl_cons, ih _ (toUint32_lt _), toUint32_natCast, List.map_cons, List.sum_cons]
    omega

theorem mergeChecksums_eq (rs : List WorkerMessage) :
    mergeChecksums rs = (rs.map (fun r => r.checksum)).sum % 4294967296 := by
  unfold mergeChecksums
  rw [foldl_ushr rs 0 (by norm_num), Nat.zero_add]

/-- C7: the checksum merge of the telemetry final reducer does not depend on the order of the
worker results: any permutation of the list gives the same value, the sum of the partial
checksums modulo `2^32`. -/
theorem mergeChecksums_perm (rs rs' : List WorkerMessage) (h : rs.Perm rs') :
    mergeChecksums rs = mergeChecksums rs'
      ∧ mergeChecksums rs = (rs.map (fun r => r.checksum)).sum % 2 ^ 32 := by
  refine ⟨?_, mergeChecksums_eq rs⟩
  rw [mergeChecksums_eq, mergeChecksums_eq, (h.map (fun r => r.checksum)).sum_eq]

/-- C7 on three partial checksums: merging `[a, b, c]` equals merging `[c, a, b]`. -/
theorem mergeChecksums_perm_witness :
    List.Perm
        [({ total := 10, checksum := 4000000000 } : WorkerMessage),
          { total := 10, checksum := 3000000000 }, { total := 10, checksum := 5 }]
        [{ total := 10, checksum := 5 }, { total := 10, checksum := 4000000000 },
          { total := 10, checksum := 3000000000 }]
    ∧ mergeChecksums
        [{ total := 10, checksum := 4000000000 }, { total := 10, checksum := 3000000000 },
          { total := 10, checksum := 5 }]
      = mergeChecksums
        [{ total := 10, checksum := 5 }, { total := 10, checksum := 4000000000 },
          { total := 10, checksum := 3000000000 }] :=
  ⟨by decide, (mergeChecksums_perm _ _ (by decide)).1⟩

/-! ## Generated payloads -/

theorem validRecord_of_parse (parse : JsString → Option JsVal) (s d : JsString) (ts t : Nat)
    (st p : JsString) (h : parse s = some (recordValue d ts t st p)) :
    validRecord parse s = true := by
  unfold validRecord
  rw [h]
  rfl

theorem deviceIdOf_of_parse (parse : JsString → Option JsVal) (s d : JsString) (ts t : Nat)
    (st p : JsString) (h : parse s = some (recordValue d ts t st p)) :
    deviceIdOf parse s = d := by
  unfold deviceIdOf
  rw [h]
  rfl

theorem tempAbove95_of_parse (parse : JsString → Option JsVal) (s d : JsString) (ts t : Nat)
    (st p : JsString) (h : parse s = some (recordValue d ts t st p)) :
    tempAbove95 parse s = decide (95 < t) := by
  unfold tempAbove95
  rw [h]
  show decide ((95 : ℚ) < (t : ℚ)) = decide (95 < t)
  congr 1
  exact propext (by exact_mod_cast Iff.rfl)

theorem statusIsAlarm_of_parse (parse : JsString → Option JsVal) (s d : JsString) (ts t : Nat)
    (st p : JsString) (h : parse s = some (recordValue d ts t st p)) :
    statusIsAlarm parse s = (st == js "ALARM") := by
  unfold statusIsAlarm
  rw [h]
  rfl

/-- On a generated record the status never adds an alarm: the record is an alarm exactly when
`i % 120 > 95`. -/
theorem isAlarmRecord_genPayload (parse : JsString → Option JsVal) (D i ts : Nat)
    (h : parse (genPayload D i ts) = some (genRecord D i ts)) :
    isAlarmRecord parse (genPayload D i ts) = decide (95 < i % 120) := by
  unfold isAlarmRecord
  unfold genRecord at h
  rw [tempAbove95_of_parse parse _ _ _ _ _ _ h, statusIsAlarm_of_parse parse _ _ _ _ _ _ h]
  by_cases h1 : i % 120 > 95 ∧ i % 7 = 0
  · have h2 : 95 < i % 120 := h1.1
    simp [h1, h2]
  · rw [if_neg h1]
    have : (js "OK" == js "ALARM") = false := by decide
    rw [this, Bool.or_false]

/-- The value read back from the decimal digits of `decimal n`. -/
theorem foldl_decimalAux (fuel n : Nat) (acc : List Nat) (hf : n < fuel) :
    (decimalAux fuel n acc).foldl (fun a c => 10 * a + (c - 48)) 0
      = acc.foldl (fun a c => 10 * a + (c - 48)) n := by
  induction fuel generalizing n acc with
  | zero => omega
  | succ fuel ih =>
    rw [decimalAux]
    by_cases h : n / 10 = 0
    · rw [if_pos h, List.foldl_cons]
      congr 1
      omega
    · rw [if_neg h, ih (n / 10) _ (by omega), List.foldl_cons]
      congr 1
      omega

theorem decimal_injective : Function.Injective decimal := by
  intro a b h
  have ha := foldl_decimalAux (a + 1) a [] (by omega)
  have hb := foldl_decimalAux (b + 1) b [] (by omega)
  unfold decimal at h
  rw [h, hb] at ha
  simpa using ha.symm

/-- Distinct indices give distinct `dev-<k>` identifiers. -/
theorem deviceName_injective : Function.Injective (fun k => js "dev-" ++ decimal k) :=
  fun _ _ h => decimal_injective (List.append_cancel_left h)

theorem image_mod_range (n D : Nat) (hD : 1 ≤ D) :
    (Finset.range n).image (fun i => i % D) = Finset.range (min n D) := by
  ext k
  simp only [Finset.mem_image, Finset.mem_range]
  constructor
  · rintro ⟨i, hi, rfl⟩
    have h1 : i % D < D := Nat.mod_lt _ (by omega)
    have h2 : i % D ≤ i := Nat.mod_le _ _
    omega
  · intro hk
    exact ⟨k, by omega, Nat.mod_eq_of_lt (by omega)⟩

/-- The number of distinct device identifiers among the first `n` indices. -/
theorem dedup_deviceNames_length (n D : Nat) (hD : 1 ≤ D) :
    ((List.range n).map (fun i => js "dev-" ++ decimal (i % D))).dedup.length = min n D := by
  have hfin : ((List.range n).map (fun i => js "dev-" ++ decimal (i % D))).toFinset
      = ((Finset.range n).image (fun i => i % D)).image (fun k => js "dev-" ++ decimal k) := by
    ext x
    simp only [List.mem_toFinset, List.mem_map, List.mem_range, Finset.mem_image,
      Finset.mem_range]
    constructor
    · rintro ⟨i, hi, rfl⟩
      exact ⟨i % D, ⟨i, hi, rfl⟩, rfl⟩
    · rintro ⟨k, ⟨i, hi, rfl⟩, rfl⟩
      exact ⟨i, hi, rfl⟩
  rw [← List.card_toFinset, hfin, image_mod_range n D hD,
    Finset.card_image_of_injective _ deviceName_injective, Finset.card_range]

theorem deviceIds_genPayloads (parse : JsString → Option JsVal) (now : Nat → Nat) (n D : Nat)
    (hparse : ∀ i, i < n → parse (genPayload D i (now i)) = some (genRecord D i (now i))) :
    deviceIds parse (genPayloads now n D)
      = ((List.range n).map (fun i => js "dev-" ++ decimal (i % D))).dedup := by
  unfold deviceIds genPayloads
  rw [List.map_map]
  congr 1
  apply List.map_congr_left
  intro i hi
  exact deviceIdOf_of_parse parse _ _ _ _ _ _ (hparse i (List.mem_range.1 hi))

theorem valid_genPayloads (parse : JsString → Option JsVal) (now : Nat → Nat) (n D : Nat)
    (hparse : ∀ i, i < n → parse (genPayload D i (now i)) = some (genRecord D i (now i))) :
    ∀ s ∈ genPayloads now n D, validRecord parse s = true := by
  intro s hs
  obtain ⟨i, hi, rfl⟩ := (mem_genPayloads now n D s).1 hs
  exact validRecord_of_parse parse _ _ _ _ _ _ (hparse i hi)

theorem countP_genPayloads (parse : JsString → Option JsVal) (now : Nat → Nat) (n D : Nat)
    (hparse : ∀ i, i < n → parse (genPayload D i (now i)) = some (genRecord D i (now i))) :
    (genPayloads now n D).countP (isAlarmRecord parse)
      = (List.range n).countP (fun i => decide (95 < i % 120)) := by
  unfold genPayloads
  rw [List.countP_map]
  apply List.countP_congr
  intro i hi
  simp only [Function.comp_apply]
  rw [isAlarmRecord_genPayload parse D i (now i) (hparse i (List.mem_range.1 hi))]

/-- The result of `processBatch` on generated payloads that `parse` reads back. -/
theorem processBatch_genPayloads (parse : JsString → Option JsVal) (now : Nat → Nat)
    (n D : Nat)
    (hparse : ∀ i, i < n → parse (genPayload D i (now i)) = some (genRecord D i (now i))) :
    processBatch parse (genPayloads now n D)
      = some { devices := ((List.range n).map
                  (fun i => js "dev-" ++ decimal (i % D))).dedup.length
               alarmCount := (List.range n).countP (fun i => decide (95 < i % 120))
               checksumTotal := ((genPayloads now n D).map fnv1a32).sum % 4294967296 } := by
  rw [processBatch_of_valid parse _ (valid_genPayloads parse now n D hparse),
    countP_genPayloads parse now n D hparse,
    ← List.length_map (foldRecords parse (genPayloads now n D) _).agg Prod.fst,
    (foldRecords_keys_perm parse (genPayloads now n D)).length_eq,
    deviceIds_genPayloads parse now n D hparse]

/-! ## Claims C9 and C10 -/

set_option maxRecDepth 20000 in
/-- C9 as stated fails: one generated record with clock reading `0` gives the checksum
`999540613`, the same record with clock reading `1` gives `3325453720`. -/
theorem checksumTotal_depends_on_clock :
    processBatch parseJson (genPayloads (fun _ => 0) 1)
        = some { devices := 1, alarmCount := 0, checksumTotal := 999540613 }
    ∧ processBatch parseJson (genPayloads (fun _ => 1) 1)
        = some { devices := 1, alarmCount := 0, checksumTotal := 3325453720 } := by
  have hfun : fnv1a32 = fnv1a32Ref := funext fnv1a32_eq_fnv1a32Ref
  constructor
  · rw [processBatch_of_valid parseJson _ (by decide), hfun]
    decide
  · rw [processBatch_of_valid parseJson _ (by decide), hfun]
    decide

/-- C9, amended: for any two sequences of clock readings `processBatch` returns on the
generated payloads with the same `devices` and the same `alarmCount`; the `checksumTotal`,
computed over the raw strings that contain `ts`, is the same when the two runs read the same
clock values. -/
theorem result_modulo_clock (parse : JsString → Option JsVal) (now1 now2 : Nat → Nat)
    (n D : Nat)
    (hp1 : ∀ i, i < n → parse (genPayload D i (now1 i)) = some (genRecord D i (now1 i)))
    (hp2 : ∀ i, i < n → parse (genPayload D i (now2 i)) = some (genRecord D i (now2 i))) :
    ∃ r1 r2, processBatch parse (genPayloads now1 n D) = some r1
      ∧ processBatch parse (genPayloads now2 n D) = some r2
      ∧ r1.devices = r2.devices ∧ r1.alarmCount = r2.alarmCount
      ∧ ((∀ i, i < n → now1 i = now2 i) → r1.checksumTotal = r2.checksumTotal) := by
  refine ⟨_, _, processBatch_genPayloads parse now1 n D hp1,
    processBatch_genPayloads parse now2 n D hp2, rfl, rfl, ?_⟩
  intro h
  have : genPayloads now1 n D = genPayloads now2 n D := by
    unfold genPayloads
    apply List.map_congr_left
    intro i hi
    rw [h i (List.mem_range.1 hi)]
  show _ % _ = _ % _
  rw [this]

set_option maxRecDepth 20000 in
/-- C9, amended, on three records over two devices, read by the reference parser under the
clocks of workers `0` and `1`. -/
theorem result_modulo_clock_witness :
    (∀ i, i < 3 → parseJson (genPayload 2 i (sampleClock 0 i))
        = some (genRecord 2 i (sampleClock 0 i)))
    ∧ (∀ i, i < 3 → parseJson (genPayload 2 i (sampleClock 1 i))
        = some (genRecord 2 i (sampleClock 1 i)))
    ∧ ∃ r1 r2, processBatch parseJson (genPayloads (sampleClock 0) 3 2) = some r1
      ∧ processBatch parseJson (genPayloads (sampleClock 1) 3 2) = some r2
      ∧ r1.devices = r2.devices ∧ r1.alarmCount = r2.alarmCount
      ∧ ((∀ i, i < 3 → sampleClock 0 i = sampleClock 1 i)
          → r1.checksumTotal = r2.checksumTotal) := by
  have h1 : ∀ i, i < 3 → parseJson (genPayload 2 i (sampleClock 0 i))
      = some (genRecord 2 i (sampleClock 0 i)) := by
    intro i hi
    interval_cases i <;> rfl
  have h2 : ∀ i, i < 3 → parseJson (genPayload 2 i (sampleClock 1 i))
      = some (genRecord 2 i (sampleClock 1 i)) := by
    intro i hi
    interval_cases i <;> rfl
  exact ⟨h1, h2, result_modulo_clock parseJson (sampleClock 0) (sampleClock 1) 3 2 h1 h2⟩

/-- C10: for every `n` and device modulus `D ≥ 1`, `processBatch(genPayloads(n, D))` returns
with `devices = min(n, D)` (given a `JSON.parse` that reads the generated records back); so a
batch of `10000` records with the default modulus `1000` has `devices = 1000`; and distinct
indices give distinct `dev-<k>` identifiers. -/
theorem devices_eq_min (parse : JsString → Option JsVal) (now : Nat → Nat) (n D : Nat)
    (hD : 1 ≤ D)
    (hparse : ∀ i, i < n → parse (genPayload D i (now i)) = some (genRecord D i (now i))) :
    (∃ res, processBatch parse (genPayloads now n D) = some res ∧ res.devices = min n D
        ∧ (n = 10000 → D = 1000 → res.devices = 1000))
    ∧ ∀ j k, js "dev-" ++ decimal j = js "dev-" ++ decimal k → j = k := by
  refine ⟨⟨_, processBatch_genPayloads parse now n D hparse,
    dedup_deviceNames_length n D hD, ?_⟩, fun j k h => deviceName_injective h⟩
  intro hn hd
  calc _ = min n D := dedup_deviceNames_length n D hD
    _ = 1000 := by rw [hn, hd]; rfl

set_option maxRecDepth 20000 in
/-- C10 on three records with modulus `2`, read by the reference parser: two devices. -/
theorem devices_eq_min_witness :
    (1 ≤ 2)
    ∧ (∀ i, i < 3 → parseJson (genPayload 2 i (sampleClock 0 i))
        = some (genRecord 2 i (sampleClock 0 i)))
    ∧ ∃ res, processBatch parseJson (genPayloads (sampleClock 0) 3 2) = some res
        ∧ res.devices = 2 := by
  have h1 : ∀ i, i < 3 → parseJson (genPayload 2 i (sampleClock 0 i))
      = some (genRecord 2 i (sampleClock 0 i)) := by
    intro i hi
    interval_cases i <;> rfl
  obtain ⟨⟨res, hres, hdev, _⟩, _⟩ :=
    devices_eq_min parseJson (sampleClock 0) 3 2 (by decide) h1
  exact ⟨by decide, h1, res, hres, hdev⟩

/-! ## Claims C11 and C18 -/

theorem getElem?_genPayloads (now : Nat → Nat) (n D i : Nat) (hi : i < n) :
    (genPayloads now n D)[i]? = some (genPayload D i (now i)) := by
  unfold genPayloads
  rw [List.getElem?_map, List.getElem?_range hi]
  rfl

set_option maxRecDepth 20000 in
theorem js_filler :
    js "xxxxxxxxxxxxxxxxxxxxxxxxxxxxxxxxxxxxxxxxxxxxxxxxxxxxxxxxxxxxxxxx"
      = List.replicate 64 120 := by
  decide

/-- C11: `genPayloads(n, D)` has length `n`, and for `i < n` its `i`-th element is the
serialization of the record with `deviceId = 'dev-' + (i mod D)`, `ts` the clock reading,
`temp = i mod 120` (at most `119`), `status` equal to `'ALARM'` exactly when `temp > 95` and
`i mod 7 = 0` and to `'OK'` otherwise, and `payload` the character `x` repeated 64 times. -/
theorem genPayloads_spec (now : Nat → Nat) (n D i : Nat) (hD : 1 ≤ D) (hi : i < n) :
    (genPayloads now n D).length = n
    ∧ i % D < D ∧ i % 120 ≤ 119
    ∧ ∃ status, (genPayloads now n D)[i]?
          = some (stringifyRecord (js "dev-" ++ decimal (i % D)) (now i) (i % 120) status
              (js "xxxxxxxxxxxxxxxxxxxxxxxxxxxxxxxxxxxxxxxxxxxxxxxxxxxxxxxxxxxxxxxx"))
        ∧ (status = js "ALARM" ↔ (i % 120 > 95 ∧ i % 7 = 0))
        ∧ (status = js "OK" ↔ ¬ (i % 120 > 95 ∧ i % 7 = 0)) := by
  refine ⟨by simp [genPayloads], Nat.mod_lt _ (by omega), by omega, ?_⟩
  refine ⟨if i % 120 > 95 ∧ i % 7 = 0 then js "ALARM" else js "OK", ?_, ?_, ?_⟩
  · rw [getElem?_genPayloads now n D i hi, js_filler]
    rfl
  · by_cases h : i % 120 > 95 ∧ i % 7 = 0
    · simp [h]
    · rw [if_neg h]
      have : js "OK" ≠ js "ALARM" := by decide
      simp [h, this]
  · by_cases h : i % 120 > 95 ∧ i % 7 = 0
    · rw [if_pos h]
      have : js "ALARM" ≠ js "OK" := by decide
      simp [h, this]
    · simp [h]

/-- C11 at `n = 200`, `D = 7`, `i = 119`: an alarm record of device `dev-0`. -/
theorem genPayloads_spec_witness :
    (1 ≤ 7) ∧ (119 < 200)
    ∧ (genPayloads (sampleClock 0) 200 7).length = 200
    ∧ ∃ status, (genPayloads (sampleClock 0) 200 7)[119]?
          = some (stringifyRecord (js "dev-" ++ decimal (119 % 7)) (sampleClock 0 119)
              (119 % 120) status
              (js "xxxxxxxxxxxxxxxxxxxxxxxxxxxxxxxxxxxxxxxxxxxxxxxxxxxxxxxxxxxxxxxx"))
        ∧ status = js "ALARM" := by
  obtain ⟨hlen, _, _, status, hget, hal, _⟩ :=
    genPayloads_spec (sampleClock 0) 200 7 119 (by decide) (by decide)
  exact ⟨by decide, by decide, hlen, status, hget, hal.2 (by decide)⟩

theorem countP_range_add_cycle (n : Nat) :
    (List.range (n + 120)).countP (fun i => decide (95 < i % 120))
      = (List.range n).countP (fun i => decide (95 < i % 120)) + 24 := by
  rw [Nat.add_comm n 120, List.range_add, List.countP_append, List.countP_map, Nat.add_comm]
  congr 1
  induction n with
  | zero => decide
  | succ n ih =>
    rw [List.range_succ, List.countP_append, ih]
    have h : (120 + n) % 120 = n % 120 := by omega
    simp [List.countP_cons, h]

theorem countP_range_cycles (q : Nat) :
    (List.range (120 * q)).countP (fun i => decide (95 < i % 120)) = 24 * q := by
  induction q with
  | zero => rfl
  | succ q ih =>
    rw [Nat.mul_succ, countP_range_add_cycle, ih, Nat.mul_succ]

/-- C18: on generated telemetry a record with status `'ALARM'` also has `temp > 95`, so (given
a `JSON.parse` that reads the generated records back) `processBatch(genPayloads(n, D))` returns
with `alarmCount` the number of indices `i < n` with `i mod 120 > 95`; that number is `24` for
each full cycle of `120` records. The modulus `D` plays no part. -/
theorem alarmCount_genPayloads (parse : JsString → Option JsVal) (now : Nat → Nat) (n D : Nat)
    (hparse : ∀ i, i < n → parse (genPayload D i (now i)) = some (genRecord D i (now i))) :
    (∀ i, i < n → statusIsAlarm parse (genPayload D i (now i)) = true →
        tempAbove95 parse (genPayload D i (now i)) = true ∧ 95 < i % 120)
    ∧ (∃ res, processBatch parse (genPayloads now n D) = some res
        ∧ res.alarmCount = ((List.range n).filter (fun i => decide (i % 120 > 95))).length)
    ∧ ∀ q, ((List.range (120 * q)).filter (fun i => decide (i % 120 > 95))).length = 24 * q := by
  refine ⟨?_, ⟨_, processBatch_genPayloads parse now n D hparse, ?_⟩, ?_⟩
  · intro i hi hst
    have hp := hparse i hi
    unfold genRecord at hp
    rw [statusIsAlarm_of_parse parse _ _ _ _ _ _ hp] at hst
    rw [tempAbove95_of_parse parse _ _ _ _ _ _ hp]
    by_cases h1 : i % 120 > 95 ∧ i % 7 = 0
    · exact ⟨by simpa using h1.1, h1.1⟩
    · rw [if_neg h1] at hst
      exact absurd hst (by decide)
  · show List.countP _ _ = _
    rw [List.countP_eq_length_filter]
  · intro q
    rw [← List.countP_eq_length_filter]
    exact countP_range_cycles q

set_option maxRecDepth 20000 in
/-- C18 on three records with modulus `2`, read by the reference parser. -/
theorem alarmCount_genPayloads_witness :
    (∀ i, i < 3 → parseJson (genPayload 2 i (sampleClock 0 i))
        = some (genRecord 2 i (sampleClock 0 i)))
    ∧ ∃ res, processBatch parseJson (genPayloads (sampleClock 0) 3 2) = some res
        ∧ res.alarmCount = ((List.range 3).filter (fun i => decide (i % 120 > 95))).length := by
  have h1 : ∀ i, i < 3 → parseJson (genPayload 2 i (sampleClock 0 i))
      = some (genRecord 2 i (sampleClock 0 i)) := by
    intro i hi
    interval_cases i <;> rfl
  exact ⟨h1, (alarmCount_genPayloads parseJson (sampleClock 0) 3 2 h1).2.1⟩

/-! ## Claim C16 -/

theorem sum_mapSet_proj (f : Agg → Nat) (hf : f { count := 0, alarms := 0, checksum := 0 } = 0)
    (m : DeviceMap) (k : JsString) (a : Agg) :
    (((mapSet m k a).map (fun e => f e.2)).sum
        + f ((mapGet m k).getD { count := 0, alarms := 0, checksum := 0 }))
      = (m.map (fun e => f e.2)).sum + f a := by
  induction m with
  | nil => simp [mapSet, mapGet, hf]
  | cons e rest ih =>
    obtain ⟨k', b⟩ := e
    by_cases hk : k' = k
    · subst hk
      simp [mapSet, mapGet]
      omega
    · simp only [mapSet, mapGet, hk, if_false, List.map_cons, List.sum_cons]
      omega

/-- The counts of the device map add up to the number of records. -/
theorem foldRecords_sum_count (parse : JsString → Option JsVal) (l : List JsString) :
    ((foldRecords parse l { agg := [], alarmCount := 0 }).agg.map (fun e => e.2.count)).sum
      = l.length := by
  induction l using List.reverseRecOn with
  | nil => simp [foldRecords]
  | append_singleton l s ih =>
    rw [foldRecords_append, recordStep_agg]
    have h := sum_mapSet_proj (fun a => a.count) rfl
      (foldRecords parse l { agg := [], alarmCount := 0 }).agg (deviceIdOf parse s)
      (bump ((mapGet (foldRecords parse l { agg := [], alarmCount := 0 }).agg
        (deviceIdOf parse s)).getD { count := 0, alarms := 0, checksum := 0 })
        (isAlarmRecord parse s) (fnv1a32 s))
    simp only [bump] at h
    simp only [bump, List.length_append, List.length_singleton]
    omega

/-- The alarm counts of the device map add up to the number of alarm records. -/
theorem foldRecords_sum_alarms (parse : JsString → Option JsVal) (l : List JsString) :
    ((foldRecords parse l { agg := [], alarmCount := 0 }).agg.map (fun e => e.2.alarms)).sum
      = l.countP (isAlarmRecord parse) := by
  induction l using List.reverseRecOn with
  | nil => simp [foldRecords]
  | append_singleton l s ih =>
    rw [foldRecords_append, recordStep_agg]
    have h := sum_mapSet_proj (fun a => a.alarms) rfl
      (foldRecords parse l { agg := [], alarmCount := 0 }).agg (deviceIdOf parse s)
      (bump ((mapGet (foldRecords parse l { agg := [], alarmCount := 0 }).agg
        (deviceIdOf parse s)).getD { count := 0, alarms := 0, checksum := 0 })
        (isAlarmRecord parse s) (fnv1a32 s))
    simp only [bump] at h
    simp only [bump, List.countP_append, List.countP_cons, List.countP_nil]
    cases hal : isAlarmRecord parse s <;> simp [hal] at h ⊢ <;> omega

theorem aggOf_of_mem (parse : JsString → Option JsVal) (l : List JsString) (d : JsString)
    (hd : d ∈ l.map (deviceIdOf parse)) :
    aggOf parse l d
      = some { count := (recordsOf parse l d).length
               alarms := ((recordsOf parse l d).filter (isAlarmRecord parse)).length
               checksum := deviceChecksum parse l d } := by
  obtain ⟨s, hs, rfl⟩ := List.mem_map.1 hd
  have hne : recordsOf parse l (deviceIdOf parse s) ≠ [] := by
    intro h
    have : s ∈ recordsOf parse l (deviceIdOf parse s) :=
      List.mem_filter.2 ⟨hs, by simp⟩
    rw [h] at this
    exact absurd this (List.not_mem_nil _)
  unfold aggOf
  rw [if_neg hne, List.countP_eq_length_filter]

theorem aggOf_of_not_mem (parse : JsString → Option JsVal) (l : List JsString) (d : JsString)
    (hd : d ∉ l.map (deviceIdOf parse)) : aggOf parse l d = none := by
  have he : recordsOf parse l d = [] := by
    unfold recordsOf
    rw [List.filter_eq_nil_iff]
    intro s hs h
    exact hd (List.mem_map.2 ⟨s, hs, by simpa using h⟩)
  unfold aggOf
  rw [if_pos he]

/-- C16: after the loop of the telemetry `processBatch` on a batch of valid records, the device
map holds each `deviceId` of the batch once and no other key, with `count` the number of
records of the device, `alarms` the number of its alarm records and `checksum` below `2^32`;
the counts add up to the batch length, the alarm counts to `alarmCount`, `alarms ≤ count` for
every device, and `devices` is the number of distinct device identifiers. -/
theorem deviceMap_invariant (parse : JsString → Option JsVal) (payloads : List JsString)
    (hv : ∀ s ∈ payloads, validRecord parse s = true) :
    ∃ st res, processLoop parse payloads { agg := [], alarmCount := 0 } = some st
      ∧ processBatch parse payloads = some res
      ∧ (∀ d, d ∈ payloads.map (deviceIdOf parse) →
          mapGet st.agg d
            = some { count := (recordsOf parse payloads d).length
                     alarms := ((recordsOf parse payloads d).filter
                       (fun s => tempAbove95 parse s || statusIsAlarm parse s)).length
                     checksum := deviceChecksum parse payloads d })
      ∧ (∀ d, d ∉ payloads.map (deviceIdOf parse) → mapGet st.agg d = none)
      ∧ (st.agg.map Prod.fst).Nodup
      ∧ (∀ e ∈ st.agg, e.2.checksum < 2 ^ 32 ∧ e.2.alarms ≤ e.2.count)
      ∧ (st.agg.map (fun e => e.2.count)).sum = payloads.length
      ∧ (st.agg.map (fun e => e.2.alarms)).sum = res.alarmCount
      ∧ res.devices = ((payloads.map (deviceIdOf parse)).dedup).length := by
  refine ⟨_, _, processLoop_of_valid parse payloads _ hv, processBatch_of_valid parse payloads hv,
    ?_, ?_, foldRecords_nodup parse payloads, ?_, foldRecords_sum_count parse payloads,
    foldRecords_sum_alarms parse payloads, ?_⟩
  · intro d hd
    rw [foldRecords_mapGet, aggOf_of_mem parse payloads d hd]
    rfl
  · intro d hd
    rw [foldRecords_mapGet, aggOf_of_not_mem parse payloads d hd]
  · rintro ⟨d, a⟩ he
    have hval := foldRecords_value parse payloads d a he
    have hmem : d ∈ payloads.map (deviceIdOf parse) := by
      by_contra hn
      rw [aggOf_of_not_mem parse payloads d hn] at hval
      exact absurd hval (by simp)
    rw [aggOf_of_mem parse payloads d hmem] at hval
    cases hval
    refine ⟨?_, List.length_filter_le _ _⟩
    show deviceChecksum parse payloads d < 2 ^ 32
    unfold deviceChecksum
    exact Nat.mod_lt _ (by norm_num)
  · show List.length _ = _
    rw [← List.length_map (foldRecords parse payloads _).agg Prod.fst,
      (foldRecords_keys_perm parse payloads).length_eq]
    rfl

/-- C16 on the sample batch (devices `a`, `a` and `b`). -/
theorem deviceMap_invariant_witness :
    (∀ s ∈ sampleBatch, validRecord parseJson s = true)
    ∧ ∃ st res, processLoop parseJson sampleBatch { agg := [], alarmCount := 0 } = some st
      ∧ processBatch parseJson sampleBatch = some res
      ∧ (st.agg.map (fun e => e.2.count)).sum = sampleBatch.length
      ∧ (st.agg.map (fun e => e.2.alarms)).sum = res.alarmCount
      ∧ res.devices = ((sampleBatch.map (deviceIdOf parseJson)).dedup).length := by
  obtain ⟨st, res, h1, h2, _, _, _, _, h3, h4, h5⟩ :=
    deviceMap_invariant parseJson sampleBatch (by decide)
  exact ⟨by decide, st, res, h1, h2, h3, h4, h5⟩

/-! ## Claim C17 -/

/-- The traced loop is the loop: forgetting the trace gives `batchLoop`. -/
theorem eraseTrace_batchLoopTrace (parse : JsString → Option JsVal) (now : Nat → Nat)
    (batch total fuel processed checksum : Nat) :
    eraseTrace (batchLoopTrace parse now batch total fuel processed checksum)
      = batchLoop parse now batch total fuel processed checksum := by
  induction fuel generalizing processed checksum with
  | zero => rfl
  | succ fuel ih =>
    rw [batchLoopTrace, batchLoop]
    by_cases h : processed < total
    · simp only [if_pos h]
      cases hp : processBatch parse (genPayloads (fun i => now (processed + i))
          (min batch (total - processed))) with
      | none => rfl
      | some res =>
        simp only
        rw [← ih]
        cases batchLoopTrace parse now batch total fuel
          (processed + min batch (total - processed))
          (toUint32 ((checksum + res.checksumTotal : Nat) : Int)) <;> rfl
    · simp only [if_neg h]
      rfl

theorem ceil_step (batch r : Nat) (hb : 0 < batch) (hr : 0 < r) :
    (r + batch - 1) / batch = (r - min batch r + batch - 1) / batch + 1 := by
  by_cases h : batch ≤ r
  · rw [Nat.min_eq_left h]
    have : r + batch - 1 = (r - batch + batch - 1) + batch := by omega
    rw [this, Nat.add_div_right _ hb]
  · have hmin : min batch r = r := Nat.min_eq_right (by omega)
    rw [hmin, Nat.sub_self, Nat.zero_add]
    have h0 : (batch - 1) / batch = 0 := Nat.div_eq_of_lt (by omega)
    have h1 : (r + batch - 1) / batch = 1 := by
      have : r + batch - 1 = (r - 1) + batch := by omega
      rw [this, Nat.add_div_right _ hb, Nat.div_eq_of_lt (by omega)]
    rw [h0, h1]

/-- With a positive batch size, valid generated records and fuel above the number of batches
left, the traced loop ends normally at `processed = total`; its trace has
`ceil((total - processed) / batch)` sizes, each between `1` and `batch`, adding up to the
records left. -/
theorem batchLoopTrace_done (parse : JsString → Option JsVal) (now : Nat → Nat)
    (batch total : Nat) (hb : 0 < batch)
    (hv : ∀ k, k < total → validRecord parse (genPayload 1000 (k % batch) (now k)) = true)
    (fuel processed checksum : Nat) (hdiv : batch ∣ processed)
    (hf : (total - processed + batch - 1) / batch < fuel) :
    ∃ c sizes, batchLoopTrace parse now batch total fuel processed checksum
        = .done (max processed total, c, sizes)
      ∧ sizes.length = (total - processed + batch - 1) / batch
      ∧ (∀ n ∈ sizes, 1 ≤ n ∧ n ≤ batch)
      ∧ sizes.sum = total - processed := by
  induction fuel generalizing processed checksum with
  | zero => exact absurd hf (Nat.not_lt_zero _)
  | succ fuel ih =>
    by_cases h : processed < total
    · have hvalid : ∀ s ∈ genPayloads (fun i => now (processed + i))
          (min batch (total - processed)), validRecord parse s = true := by
        intro s hs
        obtain ⟨i, hi, rfl⟩ := (mem_genPayloads _ _ _ s).1 hs
        have hk : (processed + i) % batch = i := by
          obtain ⟨q, rfl⟩ := hdiv
          rw [Nat.mul_add_mod]
          exact Nat.mod_eq_of_lt (by omega)
        have := hv (processed + i) (by omega)
        rwa [hk] at this
      have hceil := ceil_step batch (total - processed) hb (by omega)
      have hrest : total - (processed + min batch (total - processed))
          = total - processed - min batch (total - processed) := by omega
      rw [hceil] at hf
      rw [hceil, batchLoopTrace, if_pos h]
      simp only [processBatch_of_valid parse _ hvalid]
      generalize toUint32 _ = c'
      by_cases h2 : processed + min batch (total - processed) < total
      · have hn : min batch (total - processed) = batch := by omega
        obtain ⟨c, sizes, hc, hlen, hmem, hsum⟩ :=
          ih (processed + min batch (total - processed)) c'
            (by rw [hn]; exact Dvd.dvd.add hdiv (dvd_refl _))
            (by rw [hrest]; exact Nat.lt_of_succ_lt_succ hf)
        refine ⟨c, min batch (total - processed) :: sizes, ?_, ?_, ?_, ?_⟩
        · rw [hc]
          have : max (processed + min batch (total - processed)) total = max processed total := by
            omega
          simp only [this]
        · rw [List.length_cons, hlen, hrest]
        · intro n hn'
          rcases List.mem_cons.1 hn' with rfl | hn''
          · omega
          · exact hmem n hn''
        · rw [List.sum_cons, hsum]
          omega
      · have hfuel : 0 < fuel := Nat.lt_of_le_of_lt (Nat.zero_le _) (Nat.lt_of_succ_lt_succ hf)
        obtain ⟨f, rfl⟩ : ∃ f, fuel = f + 1 := ⟨fuel - 1, by omega⟩
        have hzero : total - processed - min batch (total - processed) = 0 := by omega
        refine ⟨c', [min batch (total - processed)], ?_, ?_, ?_, ?_⟩
        · rw [batchLoopTrace, if_neg h2]
          have : max processed total = processed + min batch (total - processed) := by omega
          simp only [this]
        · rw [hzero, Nat.zero_add, Nat.div_eq_of_lt (by omega)]
          rfl
        · intro n hn'
          rw [List.mem_singleton] at hn'
          omega
        · simp
          omega
    · have hzero : total - processed = 0 := by omega
      refine ⟨checksum, [], ?_, ?_, ?_, ?_⟩
      · rw [batchLoopTrace, if_neg h]
        have : max processed total = processed := by omega
        rw [this]
      · rw [hzero, Nat.zero_add, Nat.div_eq_of_lt (by omega)]
        rfl
      · intro n hn'
        exact absurd hn' (List.not_mem_nil _)
      · simp
        omega

/-- C17: for every `total` and batch size `batch ≥ 1`, the batching loop of `runSingle` (and of
the worker, where `batch = 10000`) ends normally, given fuel above `ceil(total / batch)` and a
`JSON.parse` that accepts the generated records: it makes exactly `ceil(total / batch)`
iterations, every batch has between `1` and `batch` records, the sizes add up to `total`, and
`processed = total` at the exit. -/
theorem batchLoop_iterations (parse : JsString → Option JsVal) (now : Nat → Nat)
    (batch total fuel : Nat) (hb : 1 ≤ batch)
    (hv : ∀ k, k < total → validRecord parse (genPayload 1000 (k % batch) (now k)) = true)
    (hf : (total + batch - 1) / batch < fuel) :
    ∃ c sizes, batchLoopTrace parse now batch total fuel 0 0 = .done (total, c, sizes)
      ∧ batchLoop parse now batch total fuel 0 0 = .done (total, c)
      ∧ sizes.length = (total + batch - 1) / batch
      ∧ (∀ n ∈ sizes, 1 ≤ n ∧ n ≤ batch)
      ∧ sizes.sum = total := by
  obtain ⟨c, sizes, hc, hlen, hmem, hsum⟩ :=
    batchLoopTrace_done parse now batch total hb hv fuel 0 0 (dvd_zero _) (by simpa using hf)
  rw [Nat.zero_max] at hc
  refine ⟨c, sizes, hc, ?_, by simpa using hlen, hmem, by simpa using hsum⟩
  rw [← eraseTrace_batchLoopTrace, hc]
  rfl

set_option maxRecDepth 20000 in
/-- C17 at `total = 5`, `batch = 2` with the reference parser: three batches, of sizes adding
up to `5`. -/
theorem batchLoop_iterations_witness :
    (1 ≤ 2)
    ∧ (∀ k, k < 5 → validRecord parseJson (genPayload 1000 (k % 2) (sampleClock 0 k)) = true)
    ∧ ((5 + 2 - 1) / 2 < 4)
    ∧ ∃ c sizes, batchLoopTrace parseJson (sampleClock 0) 2 5 4 0 0 = .done (5, c, sizes)
      ∧ batchLoop parseJson (sampleClock 0) 2 5 4 0 0 = .done (5, c)
      ∧ sizes.length = 3
      ∧ (∀ n ∈ sizes, 1 ≤ n ∧ n ≤ 2)
      ∧ sizes.sum = 5 := by
  have hv : ∀ k, k < 5 →
      validRecord parseJson (genPayload 1000 (k % 2) (sampleClock 0 k)) = true := by
    decide
  exact ⟨by decide, hv, by decide,
    batchLoop_iterations parseJson (sampleClock 0) 2 5 4 (by decide) hv (by decide)⟩

end Bench

namespace Algo

open Bench (JsString js decimal)

/-! ## Claim C8 -/

theorem jsRem_neg (a b : Int) : jsRem (-a) b = - jsRem a b := by
  unfold jsRem
  rw [Int.tmod_def, Int.tmod_def, Int.neg_tdiv]
  ring

theorem foldl_jsRem_nonneg (cs : List Int) (hcs : ∀ c ∈ cs, 0 ≤ c) (t : Int) (ht0 : 0 ≤ t)
    (ht : t < 1000000000) :
    cs.foldl (fun (t : Int) c => jsRem (t + c) 1000000000) t = (t + cs.sum) % 1000000000 := by
  induction cs generalizing t with
  | nil => simp [Int.emod_eq_of_lt ht0 ht]
  | cons c rest ih =>
    have hc : 0 ≤ c := hcs c (List.mem_cons_self _ _)
    have hstep : jsRem (t + c) 1000000000 = (t + c) % 1000000000 :=
      Int.tmod_eq_emod (by omega) (by norm_num)
    rw [List.foldl_cons, hstep, ih (fun x hx => hcs x (List.mem_cons_of_mem _ hx)) _
      (Int.emod_nonneg _ (by norm_num)) (Int.emod_lt_of_pos _ (by norm_num)),
      List.sum_cons]
    omega

theorem foldl_jsRem_neg (cs : List Int) (t : Int) :
    cs.foldl (fun (t : Int) c => jsRem (t + c) 1000000000) t
      = - (cs.map (fun c => -c)).foldl (fun (t : Int) c => jsRem (t + c) 1000000000) (-t) := by
  induction cs generalizing t with
  | nil => simp
  | cons c rest ih =>
    rw [List.foldl_cons, List.map_cons, List.foldl_cons, ih]
    congr 2
    rw [← jsRem_neg]
    congr 1
    ring

/-- The merge of non-negative checksums is their sum modulo `10^9`. -/
theorem foldChecksums_nonneg (cs : List Int) (hcs : ∀ c ∈ cs, 0 ≤ c) :
    foldChecksums cs = cs.sum % 1000000000 := by
  unfold foldChecksums
  rw [foldl_jsRem_nonneg cs hcs 0 (le_refl _) (by norm_num), Int.zero_add]

/-- The merge of checksums of one sign does not depend on their order. -/
theorem foldChecksums_perm (cs cs' : List Int) (h : cs.Perm cs')
    (hs : (∀ c ∈ cs, 0 ≤ c) ∨ (∀ c ∈ cs, c ≤ 0)) :
    foldChecksums cs = foldChecksums cs' := by
  rcases hs with hs | hs
  · rw [foldChecksums_nonneg cs hs,
      foldChecksums_nonneg cs' (fun c hc => hs c (h.mem_iff.2 hc)), h.sum_eq]
  · have hn : ∀ c ∈ cs.map (fun c => -c), 0 ≤ c := by
      intro c hc
      obtain ⟨x, hx, rfl⟩ := List.mem_map.1 hc
      have := hs x hx
      omega
    have hn' : ∀ c ∈ cs'.map (fun c => -c), 0 ≤ c :=
      fun c hc => hn c ((h.map _).mem_iff.2 hc)
    unfold foldChecksums
    rw [foldl_jsRem_neg cs 0, foldl_jsRem_neg cs' 0, Int.neg_zero]
    have h1 := foldChecksums_nonneg _ hn
    have h2 := foldChecksums_nonneg _ hn'
    unfold foldChecksums at h1 h2
    rw [h1, h2, (h.map _).sum_eq]

theorem mergeChecksums_eq_fold {F : Type} (results : List (WorkerMessage F)) :
    mergeChecksums results = foldChecksums (results.map (fun r => r.checksum)) := by
  unfold mergeChecksums foldChecksums
  rw [List.foldl_map]

theorem foldl_batchStep_checksum {F : Type} [Field F]
    (risk : JsString → F → F → F → F → Nat → RiskResult F) (iterations : Nat)
    (sensors : List (Sensor F)) (st : F × F × Int) :
    (sensors.foldl (batchStep risk iterations) st).2.2
      = (sensors.map (sensorChecksum risk iterations)).foldl
          (fun (t : Int) c => jsRem (t + c) 1000000000) st.2.2 := by
  induction sensors generalizing st with
  | nil => rfl
  | cons x rest ih =>
    rw [List.foldl_cons, ih, List.map_cons, List.foldl_cons]
    rfl

theorem processBatch_checksum_eq_fold {F : Type} [Field F]
    (risk : JsString → F → F → F → F → Nat → RiskResult F) (iterations : Nat)
    (sensors : List (Sensor F)) :
    (processBatch risk sensors iterations).checksum
      = foldChecksums (sensors.map (sensorChecksum risk iterations)) := by
  unfold processBatch foldChecksums
  exact foldl_batchStep_checksum risk iterations sensors (0, 0, 0)

/-- C8 as stated fails on checksums of mixed sign: the partial checksums `999999999, 2, -5`
merge to `-4`, and in the order `-5, 999999999, 2` to `999999996`. -/
theorem mergeChecksums_order_dependent :
    List.Perm [sampleMessage 999999999, sampleMessage 2, sampleMessage (-5)]
        [sampleMessage (-5), sampleMessage 999999999, sampleMessage 2]
    ∧ mergeChecksums [sampleMessage 999999999, sampleMessage 2, sampleMessage (-5)] = -4
    ∧ mergeChecksums [sampleMessage (-5), sampleMessage 999999999, sampleMessage 2]
        = 999999996 :=
  ⟨@List.perm_append_comm _ [sampleMessage 999999999, sampleMessage 2]
      [sampleMessage (-5)], by decide, by decide⟩

/-- C8, amended: when the checksums are all non-negative or all non-positive, the merge
`t ↦ (t + c) % 1000000000` from `0` gives the same value for every permutation of the list,
both for the per-worker checksums in `runWorkers` and for the per-sensor checksums in
`processBatch`. -/
theorem checksum_merge_perm {F : Type} [Field F] :
    (∀ (rs rs' : List (WorkerMessage F)), rs.Perm rs' →
        ((∀ r ∈ rs, 0 ≤ r.checksum) ∨ (∀ r ∈ rs, r.checksum ≤ 0)) →
        mergeChecksums rs = mergeChecksums rs')
    ∧ (∀ (risk : JsString → F → F → F → F → Nat → RiskResult F) (iterations : Nat)
        (sensors sensors' : List (Sensor F)), sensors.Perm sensors' →
        ((∀ x ∈ sensors, 0 ≤ sensorChecksum risk iterations x)
          ∨ (∀ x ∈ sensors, sensorChecksum risk iterations x ≤ 0)) →
        (processBatch risk sensors iterations).checksum
          = (processBatch risk sensors' iterations).checksum) := by
  constructor
  · intro rs rs' h hs
    rw [mergeChecksums_eq_fold, mergeChecksums_eq_fold]
    refine foldChecksums_perm _ _ (h.map _) ?_
    rcases hs with hs | hs
    · left
      intro c hc
      obtain ⟨r, hr, rfl⟩ := List.mem_map.1 hc
      exact hs r hr
    · right
      intro c hc
      obtain ⟨r, hr, rfl⟩ := List.mem_map.1 hc
      exact hs r hr
  · intro risk iterations sensors sensors' h hs
    rw [processBatch_checksum_eq_fold, processBatch_checksum_eq_fold]
    refine foldChecksums_perm _ _ (h.map _) ?_
    rcases hs with hs | hs
    · left
      intro c hc
      obtain ⟨r, hr, rfl⟩ := List.mem_map.1 hc
      exact hs r hr
    · right
      intro c hc
      obtain ⟨r, hr, rfl⟩ := List.mem_map.1 hc
      exact hs r hr

/-- C8, amended, on the non-negative checksums `999999999, 2, 5` and a rotation of them. -/
theorem checksum_merge_perm_witness :
    List.Perm [sampleMessage 999999999, sampleMessage 2, sampleMessage 5]
        [sampleMessage 5, sampleMessage 999999999, sampleMessage 2]
    ∧ ((∀ r ∈ [sampleMessage 999999999, sampleMessage 2, sampleMessage 5], 0 ≤ r.checksum)
        ∨ (∀ r ∈ [sampleMessage 999999999, sampleMessage 2, sampleMessage 5], r.checksum ≤ 0))
    ∧ mergeChecksums [sampleMessage 999999999, sampleMessage 2, sampleMessage 5]
        = mergeChecksums [sampleMessage 5, sampleMessage 999999999, sampleMessage 2] :=
  ⟨@List.perm_append_comm _ [sampleMessage 999999999, sampleMessage 2]
      [sampleMessage 5],
    Or.inl (by decide),
    checksum_merge_perm.1 _ _
      (@List.perm_append_comm _ [sampleMessage 999999999, sampleMessage 2]
        [sampleMessage 5])
      (Or.inl (by decide))⟩

/-! ## Claim C12 -/

theorem PRNG_next_fst {F : Type} [Field F] (p : PRNG) :
    (p.next : F × PRNG).1 = ((lcg p.seed : Nat) : F) / 233280 := rfl

theorem PRNG_next_snd {F : Type} [Field F] (p : PRNG) :
    (p.next : F × PRNG).2 = { seed := lcg p.seed } := rfl

theorem lcg_lt (s : Nat) : lcg s < 233280 :=
  Nat.mod_lt _ (by norm_num)

theorem iterate_lcg_lt (s k : Nat) : lcg^[k + 1] s < 233280 := by
  rw [Function.iterate_succ_apply']
  exact lcg_lt _

/-- The `k`-th value of the generator is determined by the seed: it is the `k + 1`-fold
state update of the seed, divided by `233280`. -/
theorem PRNG_outputs_getElem? {F : Type} [Field F] (n k s : Nat) (hk : k < n) :
    (PRNG.outputs { seed := s } n : List F)[k]? = some (((lcg^[k + 1] s : Nat) : F) / 233280) := by
  induction n generalizing k s with
  | zero => omega
  | succ n ih =>
    rw [PRNG.outputs, PRNG_next_fst, PRNG_next_snd]
    cases k with
    | zero =>
      rw [List.getElem?_cons_zero, Function.iterate_succ_apply, Function.iterate_zero_apply]
    | succ k =>
      rw [List.getElem?_cons_succ, ih k (lcg s) (by omega),
        Function.iterate_succ_apply lcg (k + 1) s]

/-- C12: for a non-negative integer seed `s` with `s * 9301 + 49297` at most `2^53` (so that the
product and the sum are exact), `next()` sets the state to `(s * 9301 + 49297) mod 233280` and
returns the state divided by `233280`, a value in `[0, 1)`; the state after a call is below
`233280`; and the `k`-th output of a generator is a function of its seed alone. -/
theorem PRNG_next_spec {F : Type} [LinearOrderedField F] (s : Nat)
    (hs : s * 9301 + 49297 ≤ 2 ^ 53) :
    s * 9301 ≤ 2 ^ 53
    ∧ (({ seed := s } : PRNG).next : F × PRNG).2.seed = (s * 9301 + 49297) % 233280
    ∧ (({ seed := s } : PRNG).next : F × PRNG).1
        = (((s * 9301 + 49297) % 233280 : Nat) : F) / 233280
    ∧ 0 ≤ (({ seed := s } : PRNG).next : F × PRNG).1
    ∧ (({ seed := s } : PRNG).next : F × PRNG).1 < 1
    ∧ (({ seed := s } : PRNG).next : F × PRNG).2.seed < 233280
    ∧ ∀ n k, k < n →
        (PRNG.outputs { seed := s } n : List F)[k]?
            = some (((lcg^[k + 1] s : Nat) : F) / 233280)
          ∧ lcg^[k + 1] s < 233280 := by
  have hlt : lcg s < 233280 := lcg_lt s
  have h1 : (({ seed := s } : PRNG).next : F × PRNG).1 = ((lcg s : Nat) : F) / 233280 :=
    PRNG_next_fst _
  have h2 : (({ seed := s } : PRNG).next : F × PRNG).2.seed = lcg s := by
    rw [PRNG_next_snd]
  have hle : s * 9301 ≤ 2 ^ 53 := le_trans (Nat.le_add_right _ _) hs
  rw [h1, h2]
  refine ⟨hle, rfl, rfl, ?_, ?_, hlt, fun n k hk =>
    ⟨PRNG_outputs_getElem? n k s hk, iterate_lcg_lt s k⟩⟩
  · exact div_nonneg (Nat.cast_nonneg _) (by norm_num)
  · rw [div_lt_one (by norm_num)]
    exact_mod_cast hlt

/-- C12 at the seed `115000` over the rationals: the first call leaves the state `75497`. -/
theorem PRNG_next_spec_witness :
    (115000 * 9301 + 49297 ≤ 2 ^ 53)
    ∧ (({ seed := 115000 } : PRNG).next : ℚ × PRNG).2.seed = 75497
    ∧ (({ seed := 115000 } : PRNG).next : ℚ × PRNG).1 < 1 := by
  have hs : 115000 * 9301 + 49297 ≤ 2 ^ 53 := by norm_num
  obtain ⟨_, h2, _, _, h5, _⟩ := @PRNG_next_spec ℚ _ 115000 hs
  exact ⟨hs, h2.trans (by norm_num), h5⟩

/-! ## Claim C19 -/

theorem mem_generateSensorData {F : Type} [Field F] (sin cos : F → F) (count : Nat)
    (devicePrefix : JsString) (s : Sensor F)
    (hs : s ∈ generateSensorData sin cos count devicePrefix) :
    ∃ i, i < count ∧ s.deviceId = devicePrefix ++ js "-" ++ decimal i
      ∧ s.temperature = 20 + ((i % 60 : Nat) : F) + sin ((i : F) * 0.1) * 5
      ∧ s.humidity = 40 + ((i % 40 : Nat) : F) + cos ((i : F) * 0.05) * 10
      ∧ s.pressure = 1000 + ((i % 50 : Nat) : F) + sin ((i : F) * 0.02) * 15
      ∧ s.vibration = 1 + ((i % 10 : Nat) : F) + cos ((i : F) * 0.03) * 2 := by
  unfold generateSensorData at hs
  obtain ⟨i, hi, rfl⟩ := List.mem_map.1 hs
  exact ⟨i, List.mem_range.1 hi, rfl, rfl, rfl, rfl, rfl⟩

theorem riskIteration_prng {F : Type} [LinearOrderedField F] (ops : MathOps F)
    (temperature humidity pressure vibration : F) (st : RiskState F) (i : Nat) :
    (riskIteration ops temperature humidity pressure vibration st i).prng
      = { seed := lcg st.prng.seed } := rfl

/-- The generator inside the Monte Carlo loop after `k` iterations: its state is the `k`-fold
update of the seed, whatever the reading. -/
theorem riskLoop_prng {F : Type} [LinearOrderedField F] (ops : MathOps F) (seed : Nat)
    (temperature humidity pressure vibration : F) (k : Nat) :
    (riskLoop ops seed temperature humidity pressure vibration k).prng
      = { seed := lcg^[k] seed } := by
  induction k with
  | zero => rfl
  | succ k ih =>
    unfold riskLoop at ih ⊢
    rw [List.range_succ, List.foldl_append, List.foldl_cons, List.foldl_nil,
      riskIteration_prng, ih, Function.iterate_succ_apply']

/-- The value `calculateSensorRisk` returns for a non-empty `deviceId`: the one built from the
Monte Carlo loop run with a generator seeded with `deviceId.charCodeAt(0) * 1000`. -/
theorem calculateSensorRisk_of_seed {F : Type} [LinearOrderedField F] [FloorRing F]
    (ops : MathOps F) (deviceId : JsString) (seed : Nat)
    (temperature humidity pressure vibration : F) (iterations : Nat)
    (hseed : seedOf deviceId = some seed) :
    calculateSensorRisk ops deviceId temperature humidity pressure vibration iterations
      = { riskScore := if iterations = 0 then none
            else (riskLoop ops seed temperature humidity pressure vibration
              iterations).riskScore.map (fun r => r / (iterations : F))
          failureProbability := if iterations = 0 then none
            else some ((riskLoop ops seed temperature humidity pressure vibration
              iterations).failureProbability / (iterations : F))
          checksum := (riskLoop ops seed temperature humidity pressure vibration
            iterations).riskScore.map (fun r => jsRem ⌊r * 1000000⌋ 1000000) } := by
  unfold calculateSensorRisk
  rw [hseed]

theorem riskLoop_succ {F : Type} [LinearOrderedField F] (ops : MathOps F) (seed : Nat)
    (temperature humidity pressure vibration : F) (k : Nat) :
    riskLoop ops seed temperature humidity pressure vibration (k + 1)
      = riskIteration ops temperature humidity pressure vibration
          (riskLoop ops seed temperature humidity pressure vibration k) k := by
  unfold riskLoop
  rw [List.range_succ, List.foldl_append, List.foldl_cons, List.foldl_nil]

/-- The random factor drawn in iteration `k` of the Monte Carlo loop: the `k`-th output of a
generator started at the seed. -/
theorem riskLoop_draw {F : Type} [LinearOrderedField F] (ops : MathOps F) (seed : Nat)
    (temperature humidity pressure vibration : F) (k : Nat) :
    ((riskLoop ops seed temperature humidity pressure vibration k).prng.next : F × PRNG).1
        = ((lcg^[k + 1] seed : Nat) : F) / 233280
      ∧ (PRNG.outputs { seed := seed } (k + 1) : List F)[k]?
        = some ((riskLoop ops seed temperature humidity pressure vibration k).prng.next
            : F × PRNG).1 := by
  have h1 : ((riskLoop ops seed temperature humidity pressure vibration k).prng.next
      : F × PRNG).1 = ((lcg^[k + 1] seed : Nat) : F) / 233280 := by
    rw [PRNG_next_fst, riskLoop_prng, Function.iterate_succ_apply']
  exact ⟨h1, by rw [h1]; exact PRNG_outputs_getElem? (k + 1) k seed (Nat.lt_succ_self k)⟩

theorem seedOf_sensor (tail : JsString) : seedOf (js "sensor" ++ tail) = some 115000 := rfl

theorem seedOf_worker_sensor (w : Nat) (tail : JsString) :
    seedOf (js "sensor-w" ++ decimal w ++ tail) = some 115000 := rfl

/-- C19: every sensor that `generateSensorData` produces with the prefix `'sensor'` or
`'sensor-w<workerId>'` has a `deviceId` that starts with `s` (char code `115`), so
`calculateSensorRisk`, called on it, runs its Monte Carlo loop with a generator seeded with
`115 * 1000 = 115000`, whatever the sensor index and the worker id; that loop starts from the
generator state `115000`, draws in iteration `k` the `k`-th output of the generator seeded with
`115000`, and so every sensor in every worker consumes the same pseudo-random sequence. -/
theorem sensor_seed {F : Type} [LinearOrderedField F] [FloorRing F] (sin cos : F → F)
    (count : Nat) :
    (∀ s ∈ generateSensorData sin cos count (js "sensor"),
        seedOf s.deviceId = some 115000
        ∧ ∀ (ops : MathOps F) (iterations : Nat),
            calculateSensorRisk ops s.deviceId s.temperature s.humidity s.pressure s.vibration
                iterations
              = { riskScore := if iterations = 0 then none
                    else (riskLoop ops 115000 s.temperature s.humidity s.pressure s.vibration
                      iterations).riskScore.map (fun r => r / (iterations : F))
                  failureProbability := if iterations = 0 then none
                    else some ((riskLoop ops 115000 s.temperature s.humidity s.pressure
                      s.vibration iterations).failureProbability / (iterations : F))
                  checksum := (riskLoop ops 115000 s.temperature s.humidity s.pressure
                    s.vibration iterations).riskScore.map
                      (fun r => jsRem ⌊r * 1000000⌋ 1000000) })
    ∧ (∀ w, ∀ s ∈ generateSensorData sin cos count (js "sensor-w" ++ decimal w),
        seedOf s.deviceId = some 115000
        ∧ ∀ (ops : MathOps F) (iterations : Nat),
            calculateSensorRisk ops s.deviceId s.temperature s.humidity s.pressure s.vibration
                iterations
              = { riskScore := if iterations = 0 then none
                    else (riskLoop ops 115000 s.temperature s.humidity s.pressure s.vibration
                      iterations).riskScore.map (fun r => r / (iterations : F))
                  failureProbability := if iterations = 0 then none
                    else some ((riskLoop ops 115000 s.temperature s.humidity s.pressure
                      s.vibration iterations).failureProbability / (iterations : F))
                  checksum := (riskLoop ops 115000 s.temperature s.humidity s.pressure
                    s.vibration iterations).riskScore.map
                      (fun r => jsRem ⌊r * 1000000⌋ 1000000) })
    ∧ js "s" = [115] ∧ 115 * 1000 = 115000
    ∧ ∀ (ops : MathOps F) (temperature humidity pressure vibration : F),
        riskLoop ops 115000 temperature humidity pressure vibration 0
            = { riskScore := some 0, failureProbability := 0, prng := { seed := 115000 } }
        ∧ ∀ k,
            riskLoop ops 115000 temperature humidity pressure vibration (k + 1)
                = riskIteration ops temperature humidity pressure vibration
                    (riskLoop ops 115000 temperature humidity pressure vibration k) k
            ∧ (riskLoop ops 115000 temperature humidity pressure vibration k).prng
                = { seed := lcg^[k] 115000 }
            ∧ ((riskLoop ops 115000 temperature humidity pressure vibration k).prng.next
                  : F × PRNG).1 = ((lcg^[k + 1] 115000 : Nat) : F) / 233280
            ∧ (PRNG.outputs { seed := 115000 } (k + 1) : List F)[k]?
                = some ((riskLoop ops 115000 temperature humidity pressure vibration
                    k).prng.next : F × PRNG).1 := by
  refine ⟨?_, ?_, by decide, by norm_num, fun ops t h p v => ⟨rfl, fun k =>
    ⟨riskLoop_succ ops 115000 t h p v k, riskLoop_prng ops 115000 t h p v k,
      (riskLoop_draw ops 115000 t h p v k).1, (riskLoop_draw ops 115000 t h p v k).2⟩⟩⟩
  · intro s hs
    obtain ⟨i, _, hid, _⟩ := mem_generateSensorData sin cos count _ s hs
    have hseed : seedOf s.deviceId = some 115000 := by
      rw [hid, List.append_assoc]
      exact seedOf_sensor _
    exact ⟨hseed, fun ops iterations =>
      calculateSensorRisk_of_seed ops s.deviceId 115000 _ _ _ _ iterations hseed⟩
  · intro w s hs
    obtain ⟨i, _, hid, _⟩ := mem_generateSensorData sin cos count _ s hs
    have hseed : seedOf s.deviceId = some 115000 := by
      rw [hid, List.append_assoc]
      exact seedOf_worker_sensor w _
    exact ⟨hseed, fun ops iterations =>
      calculateSensorRisk_of_seed ops s.deviceId 115000 _ _ _ _ iterations hseed⟩

theorem sensor0_name : js "sensor" ++ js "-" ++ decimal 0 = js "sensor-0" := by
  decide

theorem worker3_sensor0_name :
    js "sensor-w" ++ decimal 3 ++ js "-" ++ decimal 0 = js "sensor-w3-0" := by
  decide

/-- C19 with the real functions, on the first sensor of a single run, `sensor-0`, and of worker
`3`, `sensor-w3-0`: the checksum `calculateSensorRisk` returns after `50000` iterations is the
one of the loop whose generator is seeded with `115000`. -/
theorem sensor_seed_witness :
    (∃ s ∈ generateSensorData Real.sin Real.cos 1 (js "sensor"),
        s.deviceId = js "sensor-0" ∧ seedOf s.deviceId = some 115000
        ∧ (calculateSensorRisk
            { exp := Real.exp, sin := Real.sin, cos := Real.cos
              sqrt := fun x => if 0 ≤ x then some (Real.sqrt x) else none
              log := fun x => if 0 < x then some (Real.log x) else none
              pow := fun x y => if 0 ≤ x then some (x ^ y) else none }
            s.deviceId s.temperature s.humidity s.pressure s.vibration 50000).checksum
          = (riskLoop
            { exp := Real.exp, sin := Real.sin, cos := Real.cos
              sqrt := fun x => if 0 ≤ x then some (Real.sqrt x) else none
              log := fun x => if 0 < x then some (Real.log x) else none
              pow := fun x y => if 0 ≤ x then some (x ^ y) else none }
            115000 s.temperature s.humidity s.pressure s.vibration 50000).riskScore.map
              (fun r => jsRem ⌊r * 1000000⌋ 1000000))
    ∧ (∃ s ∈ generateSensorData Real.sin Real.cos 1 (js "sensor-w" ++ decimal 3),
        s.deviceId = js "sensor-w3-0" ∧ seedOf s.deviceId = some 115000) := by
  have h1 : ∃ s ∈ generateSensorData Real.sin Real.cos 1 (js "sensor"),
      s.deviceId = js "sensor-0" :=
    ⟨_, List.mem_map.2 ⟨0, List.mem_range.2 (by decide), rfl⟩, sensor0_name⟩
  have h2 : ∃ s ∈ generateSensorData Real.sin Real.cos 1 (js "sensor-w" ++ decimal 3),
      s.deviceId = js "sensor-w3-0" :=
    ⟨_, List.mem_map.2 ⟨0, List.mem_range.2 (by decide), rfl⟩, worker3_sensor0_name⟩
  obtain ⟨s1, hs1, hid1⟩ := h1
  obtain ⟨s2, hs2, hid2⟩ := h2
  obtain ⟨hseed1, hk1⟩ := (sensor_seed Real.sin Real.cos 1).1 s1 hs1
  refine ⟨⟨s1, hs1, hid1, hseed1, ?_⟩,
    ⟨s2, hs2, hid2, ((sensor_seed Real.sin Real.cos 1).2.1 3 s2 hs2).1⟩⟩
  rw [hk1]

/-! ## Claims C13 and C14 -/

/-- The ranges of the generated readings that hold for every index, for any `sin` and `cos`
with values in `[-1, 1]`; the vibration can be as low as `-1`. -/
theorem generateSensorData_ranges {F : Type} [LinearOrderedField F] (sin cos : F → F)
    (hsin : ∀ x, -1 ≤ sin x ∧ sin x ≤ 1) (hcos : ∀ x, -1 ≤ cos x ∧ cos x ≤ 1)
    (count : Nat) (devicePrefix : JsString) (s : Sensor F)
    (hs : s ∈ generateSensorData sin cos count devicePrefix) :
    (15 ≤ s.temperature ∧ s.temperature ≤ 85) ∧ (30 ≤ s.humidity ∧ s.humidity ≤ 90)
      ∧ (985 ≤ s.pressure ∧ s.pressure ≤ 1080) ∧ (-1 ≤ s.vibration ∧ s.vibration ≤ 12) := by
  obtain ⟨i, _, _, ht, hh, hp, hvib⟩ := mem_generateSensorData sin cos count devicePrefix s hs
  have h60 : ((i % 60 : Nat) : F) ≤ 59 := by
    exact_mod_cast Nat.le_of_lt_succ (Nat.mod_lt i (by norm_num))
  have h40 : ((i % 40 : Nat) : F) ≤ 39 := by
    exact_mod_cast Nat.le_of_lt_succ (Nat.mod_lt i (by norm_num))
  have h50 : ((i % 50 : Nat) : F) ≤ 49 := by
    exact_mod_cast Nat.le_of_lt_succ (Nat.mod_lt i (by norm_num))
  have h10 : ((i % 10 : Nat) : F) ≤ 9 := by
    exact_mod_cast Nat.le_of_lt_succ (Nat.mod_lt i (by norm_num))
  have n60 : (0 : F) ≤ ((i % 60 : Nat) : F) := Nat.cast_nonneg _
  have n40 : (0 : F) ≤ ((i % 40 : Nat) : F) := Nat.cast_nonneg _
  have n50 : (0 : F) ≤ ((i % 50 : Nat) : F) := Nat.cast_nonneg _
  have n10 : (0 : F) ≤ ((i % 10 : Nat) : F) := Nat.cast_nonneg _
  have s1 := hsin ((i : F) * 0.1)
  have s2 := hsin ((i : F) * 0.02)
  have c1 := hcos ((i : F) * 0.05)
  have c2 := hcos ((i : F) * 0.03)
  rw [ht, hh, hp, hvib]
  refine ⟨⟨?_, ?_⟩, ⟨?_, ?_⟩, ⟨?_, ?_⟩, ⟨?_, ?_⟩⟩ <;> linarith [s1.1, s1.2, s2.1, s2.2, c1.1, c1.2, c2.1, c2.2]

theorem cos_two_point_one : Real.cos 2.1 < -(1 / 2) := by
  have hpi3 : Real.cos (Real.pi - Real.pi / 3) = -(1 / 2) := by
    rw [Real.cos_pi_sub, Real.cos_pi_div_three]
  have hlt : Real.pi - Real.pi / 3 < 2.1 := by
    have := Real.pi_lt_d2
    linarith
  have h0 : 0 ≤ Real.pi - Real.pi / 3 := by
    have := Real.pi_pos
    linarith
  have hle : (2.1 : ℝ) ≤ Real.pi := by
    have := Real.pi_gt_three
    linarith
  rw [← hpi3]
  exact Real.cos_lt_cos_of_nonneg_of_le_pi h0 hle hlt

theorem sensor70_name : js "sensor" ++ js "-" ++ decimal 70 = js "sensor-70" := by
  decide

/-- The sensor of index `70` in a run of `100` sensors, for any `sin` and with the real
cosine: its vibration `1 + 70 % 10 + 2 cos(2.1)` is negative. -/
theorem sensor70_negative (sin : ℝ → ℝ) :
    ∃ s ∈ generateSensorData sin Real.cos 100,
      s.deviceId = js "sensor-70" ∧ s.vibration < 0 := by
  refine ⟨_, List.mem_map.2 ⟨70, List.mem_range.2 (by norm_num), rfl⟩, sensor70_name, ?_⟩
  show (1 : ℝ) + ((70 % 10 : Nat) : ℝ) + Real.cos (((70 : Nat) : ℝ) * 0.03) * 2 < 0
  have h : (((70 : Nat) : ℝ) * 0.03) = 2.1 := by norm_num
  have h2 : ((70 % 10 : Nat) : ℝ) = 0 := by norm_num
  rw [h, h2]
  have := cos_two_point_one
  linarith

/-- C13 at the failing input: the reading of index `70` produced by `generateSensorData(100)`,
with the real sine and cosine, has a negative vibration, outside the stated range `0-12`. -/
theorem generateSensorData_vibration_negative :
    ∃ s ∈ generateSensorData Real.sin Real.cos 100,
      s.deviceId = js "sensor-70" ∧ s.vibration < 0 :=
  sensor70_negative Real.sin

theorem harmonics_nan {F : Type} [LinearOrderedField F] (ops : MathOps F)
    (failureProbability : F) (riskScore : Option F) :
    harmonics ops none failureProbability riskScore = none := by
  unfold harmonics
  cases riskScore <;> rfl

/-- A negative vibration makes `riskScore` `NaN` in every iteration. -/
theorem riskIteration_nan {F : Type} [LinearOrderedField F] (ops : MathOps F)
    (temperature humidity pressure vibration : F) (st : RiskState F) (i : Nat)
    (h : ops.sqrt vibration = none) :
    (riskIteration ops temperature humidity pressure vibration st i).riskScore = none := by
  have hs : (do
      let hum ← (ops.pow (humidity / 100) 2).map
        (fun x => x * (1 + 0.05 * ops.cos ((i : F) * 0.02)))
      let v ← (ops.sqrt vibration).map (fun x => x * (1 + 0.08 * ops.cos ((i : F) * 0.008)))
      pure (ops.exp ((temperature - 25) / 15) * (1 + 0.1 * ops.sin ((i : F) * 0.01)) * hum
        + |pressure - 1013.25| / 50 * (1 + 0.03 * ops.sin ((i : F) * 0.015)) * v) : Option F)
      = none := by
    rw [h]
    cases (ops.pow (humidity / 100) 2) <;> rfl
  unfold riskIteration
  simp only [hs]
  by_cases hi : i % 1000 = 0
  · rw [if_pos hi]
    exact harmonics_nan ops _ _
  · rw [if_neg hi]
    cases st.riskScore <;> rfl

theorem riskLoop_nan {F : Type} [LinearOrderedField F] (ops : MathOps F) (seed : Nat)
    (temperature humidity pressure vibration : F) (iterations : Nat) (hit : 1 ≤ iterations)
    (h : ops.sqrt vibration = none) :
    (riskLoop ops seed temperature humidity pressure vibration iterations).riskScore = none := by
  obtain ⟨k, rfl⟩ : ∃ k, iterations = k + 1 := ⟨iterations - 1, by omega⟩
  unfold riskLoop
  rw [List.range_succ, List.foldl_append, List.foldl_cons, List.foldl_nil]
  exact riskIteration_nan ops temperature humidity pressure vibration _ k h

/-- With at least one iteration, a vibration whose square root is `NaN` makes the `riskScore`
and the checksum returned by `calculateSensorRisk` `NaN`. -/
theorem calculateSensorRisk_nan {F : Type} [LinearOrderedField F] [FloorRing F]
    (ops : MathOps F) (deviceId : JsString) (temperature humidity pressure vibration : F)
    (iterations : Nat) (hit : 1 ≤ iterations) (h : ops.sqrt vibration = none) :
    (calculateSensorRisk ops deviceId temperature humidity pressure vibration
        iterations).riskScore = none
      ∧ (calculateSensorRisk ops deviceId temperature humidity pressure vibration
        iterations).checksum = none := by
  have hne : iterations ≠ 0 := by omega
  unfold calculateSensorRisk
  cases seedOf deviceId with
  | none => simp [hne]
  | some seed =>
    simp only [riskLoop_nan ops seed temperature humidity pressure vibration iterations hit h,
      Option.map_none', if_neg hne, and_self]

/-- C14 at the failing input: in the run of `100` sensors and `50000` iterations the reading
of index `70` has a negative vibration, the argument of `Math.sqrt`; with a square root that is
`NaN` on negative numbers, `calculateSensorRisk` returns a `NaN` `riskScore` and a `NaN`
checksum for it. -/
theorem sensor70_risk_nan (ops : MathOps ℝ) (hcos : ops.cos = Real.cos)
    (hsqrt : ∀ x, x < 0 → ops.sqrt x = none) :
    ∃ s ∈ generateSensorData ops.sin ops.cos 100,
      s.deviceId = js "sensor-70" ∧ s.vibration < 0
        ∧ (calculateSensorRisk ops s.deviceId s.temperature s.humidity s.pressure s.vibration
            50000).riskScore = none
        ∧ (calculateSensorRisk ops s.deviceId s.temperature s.humidity s.pressure s.vibration
            50000).checksum = none := by
  rw [hcos]
  obtain ⟨s, hs, hid, hv⟩ := sensor70_negative ops.sin
  exact ⟨s, hs, hid, hv,
    calculateSensorRisk_nan ops s.deviceId s.temperature s.humidity s.pressure s.vibration
      50000 (by norm_num) (hsqrt _ hv)⟩

/-- C14 with the real functions, each `NaN` outside its real domain. -/
theorem sensor70_risk_nan_witness :
    ∃ s ∈ generateSensorData Real.sin Real.cos 100,
      s.deviceId = js "sensor-70" ∧ s.vibration < 0
        ∧ (calculateSensorRisk
            { exp := Real.exp, sin := Real.sin, cos := Real.cos
              sqrt := fun x => if 0 ≤ x then some (Real.sqrt x) else none
              log := fun x => if 0 < x then some (Real.log x) else none
              pow := fun x y => if 0 ≤ x then some (x ^ y) else none }
            s.deviceId s.temperature s.humidity s.pressure s.vibration 50000).riskScore
          = none := by
  obtain ⟨s, hs, hid, hv, hr, _⟩ := sensor70_risk_nan
    { exp := Real.exp, sin := Real.sin, cos := Real.cos
      sqrt := fun x => if 0 ≤ x then some (Real.sqrt x) else none
      log := fun x => if 0 < x then some (Real.log x) else none
      pow := fun x y => if 0 ≤ x then some (x ^ y) else none }
    rfl (fun x hx => if_neg (not_le.2 hx))
  exact ⟨s, hs, hid, hv, hr⟩

/-! ## Claim C15 -/

/-- C15 as stated fails for the batch checksum, which is reduced modulo `10^9`, not `10^6`: two
sensors with the per-sensor checksum `999999` give the batch checksum `1999998`. -/
theorem batch_checksum_above_999999 :
    (∀ x ∈ sampleSensors, sensorChecksum sampleKernel 50000 x = 999999)
    ∧ (processBatch sampleKernel sampleSensors 50000).checksum = 1999998 := by
  constructor
  · intro x _
    rfl
  · rw [processBatch_checksum_eq_fold]
    decide

theorem jsRem_floor_range {F : Type} [LinearOrderedField F] [FloorRing F] (r : F) (hr : 0 ≤ r) :
    0 ≤ jsRem ⌊r * 1000000⌋ 1000000 ∧ jsRem ⌊r * 1000000⌋ 1000000 ≤ 999999 := by
  have hfl : 0 ≤ ⌊r * 1000000⌋ := Int.floor_nonneg.2 (mul_nonneg hr (by norm_num))
  have heq : jsRem ⌊r * 1000000⌋ 1000000 = ⌊r * 1000000⌋ % 1000000 :=
    Int.tmod_eq_emod hfl (by norm_num)
  rw [heq]
  omega

theorem sum_checksums_bounds (cs : List Int) (h : ∀ c ∈ cs, 0 ≤ c ∧ c ≤ 999999) :
    0 ≤ cs.sum ∧ cs.sum ≤ 999999 * cs.length := by
  induction cs with
  | nil => simp
  | cons c rest ih =>
    have hc := h c (List.mem_cons_self _ _)
    have hr := ih (fun x hx => h x (List.mem_cons_of_mem _ hx))
    rw [List.sum_cons, List.length_cons]
    push_cast
    omega

/-- C15, amended: the checksum returned by `calculateSensorRisk` is
`floor(riskScore * 1e6) % 1e6` for the accumulated `riskScore` and lies in `[0, 999999]` when
that `riskScore` is a non-negative number; the checksum of a batch is the sum of the per-sensor
checksums modulo `10^9` and, for per-sensor checksums in `[0, 999999]`, lies in
`[0, 999999999]` (the plain sum for at most `1000` sensors). -/
theorem checksum_ranges {F : Type} [LinearOrderedField F] [FloorRing F] :
    (∀ (ops : MathOps F) (deviceId : JsString) (seed : Nat)
        (temperature humidity pressure vibration : F) (iterations : Nat),
        seedOf deviceId = some seed →
        (calculateSensorRisk ops deviceId temperature humidity pressure vibration
            iterations).checksum
          = (riskLoop ops seed temperature humidity pressure vibration iterations).riskScore.map
              (fun r => jsRem ⌊r * 1000000⌋ 1000000))
    ∧ (∀ r : F, 0 ≤ r →
        0 ≤ jsRem ⌊r * 1000000⌋ 1000000 ∧ jsRem ⌊r * 1000000⌋ 1000000 ≤ 999999)
    ∧ (∀ (risk : JsString → F → F → F → F → Nat → RiskResult F) (sensors : List (Sensor F))
        (iterations : Nat),
        (∀ x ∈ sensors, 0 ≤ sensorChecksum risk iterations x
          ∧ sensorChecksum risk iterations x ≤ 999999) →
        0 ≤ (processBatch risk sensors iterations).checksum
          ∧ (processBatch risk sensors iterations).checksum ≤ 999999999
          ∧ (processBatch risk sensors iterations).checksum
              = (sensors.map (sensorChecksum risk iterations)).sum % 1000000000
          ∧ (sensors.length ≤ 1000 →
              (processBatch risk sensors iterations).checksum
                = (sensors.map (sensorChecksum risk iterations)).sum)) := by
  refine ⟨?_, jsRem_floor_range, ?_⟩
  · intro ops deviceId seed t h p v iterations hseed
    unfold calculateSensorRisk
    rw [hseed]
  · intro risk sensors iterations hx
    have hcs : ∀ c ∈ sensors.map (sensorChecksum risk iterations), 0 ≤ c ∧ c ≤ 999999 := by
      intro c hc
      obtain ⟨x, hxm, rfl⟩ := List.mem_map.1 hc
      exact hx x hxm
    have hb := sum_checksums_bounds _ hcs
    rw [List.length_map] at hb
    rw [processBatch_checksum_eq_fold, foldChecksums_nonneg _ (fun c hc => (hcs c hc).1)]
    refine ⟨by omega, by omega, rfl, ?_⟩
    intro hlen
    have : ((sensors.length : Nat) : Int) ≤ 1000 := by exact_mod_cast hlen
    omega

/-- C15, amended, at the sensor `sensor-0`, the accumulated `riskScore` `1 / 2` and the batch
of two sensors with per-sensor checksum `999999`. -/
theorem checksum_ranges_witness :
    seedOf (js "sensor-0") = some 115000
    ∧ (0 : ℚ) ≤ 1 / 2
    ∧ (0 ≤ jsRem ⌊(1 / 2 : ℚ) * 1000000⌋ 1000000
        ∧ jsRem ⌊(1 / 2 : ℚ) * 1000000⌋ 1000000 ≤ 999999)
    ∧ (∀ x ∈ sampleSensors, 0 ≤ sensorChecksum sampleKernel 50000 x
          ∧ sensorChecksum sampleKernel 50000 x ≤ 999999)
    ∧ (processBatch sampleKernel sampleSensors 50000).checksum ≤ 999999999 := by
  have hx : ∀ x ∈ sampleSensors, 0 ≤ sensorChecksum sampleKernel 50000 x
      ∧ sensorChecksum sampleKernel 50000 x ≤ 999999 := by
    intro x _
    exact ⟨(by norm_num : (0 : Int) ≤ 999999), le_refl (999999 : Int)⟩
  obtain ⟨_, h2, h3⟩ := @checksum_ranges ℚ _ _
  exact ⟨by decide, by norm_num, h2 (1 / 2) (by norm_num), hx,
    (h3 sampleKernel sampleSensors 50000 hx).2.1⟩

end Algo
